import Mathlib

/-!
The `precisely` document CRUD service.

Shallow embedding of the Go packages `model`, `service`, `handler` and `utils`
of the repository, together with models of the standard-library functions the
code calls (`strings.TrimSpace`, `errors.Is`, `strconv.ParseInt`,
`encoding/json`, `database/sql`), followed by the theorems that settle the
specification's claims.

Conventions.
* A Go `string` is a sequence of bytes, not necessarily valid UTF-8.
* A Go result pair `(*T, error)` is a pair of options; `none` is `nil`.
* Package-level mutable singletons (`model.DocumentRepository`,
  `service.DocumentService`) are explicit arguments.
* Stateful collaborators are state transformers; every call made through an
  interface is appended to a call log, so that "is never invoked" is a
  statement about that log.
-/

namespace Precisely

/-! ## Strings -/

/-- One byte of a Go string. -/
abbrev Byte := Fin 256

/-- Go `string`: an immutable byte sequence. -/
abbrev GoString := List Byte

/-- The Go string holding the UTF-8 encoding of a literal. -/
def str (s : String) : GoString :=
  s.toUTF8.data.toList.map (fun b => Fin.ofNat b.toNat)

/-- Constant `utf8.RuneError`, the replacement character U+FFFD. -/
def RuneError : Nat := 0xFFFD

/-- Constant `utf8.RuneSelf`: bytes below it are single-byte runes. -/
def RuneSelf : Nat := 0x80

/-- Table `utf8.first` joined with `utf8.acceptRanges` for a non-ASCII lead
byte: the sequence length and the accepted range of the second byte; `none`
for a byte that cannot start a sequence. -/
def leadInfo (s0 : Nat) : Option (Nat × Nat × Nat) :=
  if s0 < 0xC2 then none
  else if s0 ≤ 0xDF then some (2, 0x80, 0xBF)
  else if s0 = 0xE0 then some (3, 0xA0, 0xBF)
  else if s0 = 0xED then some (3, 0x80, 0x9F)
  else if s0 ≤ 0xEF then some (3, 0x80, 0xBF)
  else if s0 = 0xF0 then some (4, 0x90, 0xBF)
  else if s0 ≤ 0xF3 then some (4, 0x80, 0xBF)
  else if s0 = 0xF4 then some (4, 0x80, 0x8F)
  else none

/-- Function `utf8.DecodeRuneInString`: the first rune of `s` and its width in
bytes; `(RuneError, 0)` for the empty string and `(RuneError, 1)` for an
invalid or truncated encoding. -/
def DecodeRuneInString (s : GoString) : Nat × Nat :=
  match s with
  | [] => (RuneError, 0)
  | s0 :: t =>
    if s0.val < RuneSelf then (s0.val, 1)
    else
      match leadInfo s0.val with
      | none => (RuneError, 1)
      | some (sz, lo, hi) =>
        if s.length < sz then (RuneError, 1)
        else
          match t with
          | [] => (RuneError, 1)
          | s1 :: t1 =>
            if s1.val < lo ∨ hi < s1.val then (RuneError, 1)
            else if sz ≤ 2 then ((s0.val % 32) * 64 + s1.val % 64, 2)
            else
              match t1 with
              | [] => (RuneError, 1)
              | s2 :: t2 =>
                if s2.val < 0x80 ∨ 0xBF < s2.val then (RuneError, 1)
                else if sz ≤ 3 then
                  ((s0.val % 16) * 4096 + (s1.val % 64) * 64 + s2.val % 64, 3)
                else
                  match t2 with
                  | [] => (RuneError, 1)
                  | s3 :: _ =>
                    if s3.val < 0x80 ∨ 0xBF < s3.val then (RuneError, 1)
                    else
                      ((s0.val % 8) * 262144 + (s1.val % 64) * 4096
                        + (s2.val % 64) * 64 + s3.val % 64, 4)

/-- Function `utf8.RuneStart`: the byte is not a continuation byte. -/
def RuneStart (b : Byte) : Bool := b.val / 64 != 2

/-- The backward scan of `utf8.DecodeLastRuneInString`: starting at `start`,
step left while `start ≥ lim` and the byte there is not a rune start. -/
def lastRuneScan (s : GoString) (lim : Int) : Nat → Int → Int
  | 0, start => start
  | k + 1, start =>
    if start < lim then start
    else if RuneStart (s.getD start.toNat 0) then start
    else lastRuneScan s lim k (start - 1)

/-- Function `utf8.DecodeLastRuneInString`: the last rune of `s` and its
width. -/
def DecodeLastRuneInString (s : GoString) : Nat × Nat :=
  let n : Int := s.length
  if s.length = 0 then (RuneError, 0)
  else
    let r := (s.getD (s.length - 1) 0).val
    if r < RuneSelf then (r, 1)
    else
      let lim : Int := if n - 4 < 0 then 0 else n - 4
      let start := lastRuneScan s lim 5 (n - 2)
      let start := if start < 0 then 0 else start
      let (r, size) := DecodeRuneInString (s.drop start.toNat)
      if start + size ≠ n then (RuneError, 1) else (r, size)

/-- Function `unicode.IsSpace`: the runes with the White_Space property. -/
def IsSpace (r : Nat) : Bool :=
  (0x09 ≤ r && r ≤ 0x0D) || r == 0x20 || r == 0x85 || r == 0xA0 || r == 0x1680
    || (0x2000 ≤ r && r ≤ 0x200A) || r == 0x2028 || r == 0x2029 || r == 0x202F
    || r == 0x205F || r == 0x3000

/-- Loop of `strings.TrimLeftFunc(s, unicode.IsSpace)`: drop leading runes
while they are white space. -/
def trimLeftLoop : Nat → GoString → GoString
  | 0, s => s
  | k + 1, s =>
    match s with
    | [] => []
    | _ :: _ =>
      if IsSpace (DecodeRuneInString s).1 then
        trimLeftLoop k (s.drop (DecodeRuneInString s).2)
      else s

/-- Loop of `strings.TrimRightFunc(s, unicode.IsSpace)`: drop trailing runes
while they are white space. -/
def trimRightLoop : Nat → GoString → GoString
  | 0, s => s
  | k + 1, s =>
    match s with
    | [] => []
    | _ :: _ =>
      if IsSpace (DecodeLastRuneInString s).1 then
        trimRightLoop k (s.take (s.length - (DecodeLastRuneInString s).2))
      else s

/-- Function `strings.TrimSpace`: `s` without leading and trailing white
space, as defined by Unicode. (Go's ASCII fast path computes the same slice as
`TrimFunc(s, unicode.IsSpace)`, which is what is written here.) -/
def TrimSpace (s : GoString) : GoString :=
  trimRightLoop s.length (trimLeftLoop s.length s)

/-! ## Errors -/

/-- Go `error` values. The three sentinels are distinguished by identity;
`other` is any other error value (driver, JSON, strconv), identified by `ident`
and carrying its message; `wrap` is an error whose `Unwrap` yields `inner`. -/
inductive GoError where
  | TitleInvalidValue
  | SigneeInvalidValue
  | ErrNoRows
  | other (ident : Nat) (msg : String)
  | wrap (msg : String) (inner : GoError)
deriving DecidableEq, Repr

/-- Method `Error()`: the message text of an error. -/
def GoError.Error : GoError → String
  | .TitleInvalidValue => "title had empty value, expect a valid one"
  | .SigneeInvalidValue => "signee had empty value, expect a valid one"
  | .ErrNoRows => "sql: no rows in result set"
  | .other _ msg => msg
  | .wrap msg _ => msg

/-- Function `errors.Is`: `target` is `err` or occurs in its unwrap chain. -/
def errorsIs : GoError → GoError → Bool
  | err, target =>
    err == target ||
      match err with
      | .wrap _ inner => errorsIs inner target
      | _ => false

/-! ## package model: the document entity and its validator -/

/-- The content sub-object (`model.Content`). -/
structure Content where
  Header : GoString
  Data : GoString
deriving DecidableEq, Repr

/-- The document entity (`model.Document`); `ID` is an `int64`. -/
structure Document where
  ID : Int
  Title : GoString
  Content : Content
  Signee : GoString
deriving DecidableEq, Repr

/-- Method `Document.Validate`. The receiver is a pointer: the result is the
document left behind together with the returned error. -/
def Document.Validate (d : Document) : Document × Option GoError :=
  let d := { d with Title := TrimSpace d.Title }
  let d := { d with Signee := TrimSpace d.Signee }
  if d.Title = [] then (d, some GoError.TitleInvalidValue)
  else if d.Signee = [] then (d, some GoError.SigneeInvalidValue)
  else (d, none)

/-! ## package model: the repository interface -/

/-- Go result pair `(*Document, error)`. -/
abbrev DocResult := Option Document × Option GoError

/-- Go result pair `([]*Document, error)`; `none` is the nil slice. -/
abbrev DocsResult := Option (List Document) × Option GoError

/-- Interface `documentRepositoryInterface`, over a store state `σ`. (`Init`
only opens the connection and is not part of any operation.) -/
structure documentRepositoryInterface (σ : Type) where
  Get : Int → σ → DocResult × σ
  Create : Document → σ → DocResult × σ
  Update : Document → σ → DocResult × σ
  Delete : Int → σ → Option GoError × σ
  GetAll : σ → DocsResult × σ

/-- One call made through `model.DocumentRepository`. -/
inductive RepoCall where
  | Get (id : Int)
  | Create (d : Document)
  | Update (d : Document)
  | Delete (id : Int)
  | GetAll
deriving DecidableEq, Repr

/-- What the service acts on: the repository's state and the log of the calls
made to the repository so far. -/
structure RepoWorld (σ : Type) where
  state : σ
  calls : List RepoCall
deriving DecidableEq, Repr

/-- A logged call of `model.DocumentRepository.Get`. -/
def callGet {σ : Type} (repo : documentRepositoryInterface σ) (id : Int)
    (w : RepoWorld σ) : DocResult × RepoWorld σ :=
  ((repo.Get id w.state).1, ⟨(repo.Get id w.state).2, w.calls ++ [RepoCall.Get id]⟩)

/-- A logged call of `model.DocumentRepository.Create`. -/
def callCreate {σ : Type} (repo : documentRepositoryInterface σ) (d : Document)
    (w : RepoWorld σ) : DocResult × RepoWorld σ :=
  ((repo.Create d w.state).1, ⟨(repo.Create d w.state).2, w.calls ++ [RepoCall.Create d]⟩)

/-- A logged call of `model.DocumentRepository.Update`. -/
def callUpdate {σ : Type} (repo : documentRepositoryInterface σ) (d : Document)
    (w : RepoWorld σ) : DocResult × RepoWorld σ :=
  ((repo.Update d w.state).1, ⟨(repo.Update d w.state).2, w.calls ++ [RepoCall.Update d]⟩)

/-- A logged call of `model.DocumentRepository.Delete`. -/
def callDelete {σ : Type} (repo : documentRepositoryInterface σ) (id : Int)
    (w : RepoWorld σ) : Option GoError × RepoWorld σ :=
  ((repo.Delete id w.state).1, ⟨(repo.Delete id w.state).2, w.calls ++ [RepoCall.Delete id]⟩)

/-- A logged call of `model.DocumentRepository.GetAll`. -/
def callGetAll {σ : Type} (repo : documentRepositoryInterface σ)
    (w : RepoWorld σ) : DocsResult × RepoWorld σ :=
  ((repo.GetAll w.state).1, ⟨(repo.GetAll w.state).2, w.calls ++ [RepoCall.GetAll]⟩)

/-! ## package service -/

/-- Method `documentService.Create`. -/
def documentService.Create {σ : Type} (repo : documentRepositoryInterface σ)
    (newDocument : Document) (w : RepoWorld σ) : DocResult × RepoWorld σ :=
  match newDocument.Validate with
  | (_, some err) => ((none, some err), w)
  | (newDocument, none) => callCreate repo newDocument w

/-- Method `documentService.Update`. -/
def documentService.Update {σ : Type} (repo : documentRepositoryInterface σ)
    (inputDocument : Document) (w : RepoWorld σ) : DocResult × RepoWorld σ :=
  match inputDocument.Validate with
  | (_, some err) => ((none, some err), w)
  | (inputDocument, none) =>
    match callGet repo inputDocument.ID w with
    | ((_, some err), w) => ((none, some err), w)
    | ((_, none), w) => callUpdate repo inputDocument w

/-- Method `documentService.Delete`. -/
def documentService.Delete {σ : Type} (repo : documentRepositoryInterface σ)
    (id : Int) (w : RepoWorld σ) : Option GoError × RepoWorld σ :=
  match callGet repo id w with
  | ((_, some err), w) => (some err, w)
  | ((_, none), w) => callDelete repo id w

/-- Method `documentService.Get`. -/
def documentService.Get {σ : Type} (repo : documentRepositoryInterface σ)
    (id : Int) (w : RepoWorld σ) : DocResult × RepoWorld σ :=
  callGet repo id w

/-- Method `documentService.GetAll`. -/
def documentService.GetAll {σ : Type} (repo : documentRepositoryInterface σ)
    (w : RepoWorld σ) : DocsResult × RepoWorld σ :=
  callGetAll repo w

/-- The test double `dBMock` of the service tests: every method answers with a
fixed result and keeps no state. -/
def dBMock (get create update : DocResult) (delete : Option GoError)
    (getAll : DocsResult) : documentRepositoryInterface Unit where
  Get := fun _ s => (get, s)
  Create := fun _ s => (create, s)
  Update := fun _ s => (update, s)
  Delete := fun _ s => (delete, s)
  GetAll := fun s => (getAll, s)

/-- One operation of the service, as a caller may invoke it. -/
inductive ServiceOp where
  | Get (id : Int)
  | Create (d : Document)
  | Update (d : Document)
  | Delete (id : Int)
  | GetAll
deriving DecidableEq, Repr

/-- The repository world after one service operation. -/
def runOp {σ : Type} (repo : documentRepositoryInterface σ) :
    ServiceOp → RepoWorld σ → RepoWorld σ
  | .Get id, w => (documentService.Get repo id w).2
  | .Create d, w => (documentService.Create repo d w).2
  | .Update d, w => (documentService.Update repo d w).2
  | .Delete id, w => (documentService.Delete repo id w).2
  | .GetAll, w => (documentService.GetAll repo w).2

/-- The repository world after a sequence of service operations. -/
def runOps {σ : Type} (repo : documentRepositoryInterface σ)
    (ops : List ServiceOp) (w : RepoWorld σ) : RepoWorld σ :=
  ops.foldl (fun w op => runOp repo op w) w

/-- The document a repository call asks the store to write, if any. -/
def RepoCall.written : RepoCall → Option Document
  | .Create d => some d
  | .Update d => some d
  | _ => none

/-- The documents passed to repository `Create` or `Update` in a call log. -/
def persistedDocs (calls : List RepoCall) : List Document :=
  calls.filterMap RepoCall.written

/-- A string that is non-empty, equals its own trimmed form, and neither
starts nor ends with a white-space rune. -/
def Trimmed (s : GoString) : Prop :=
  s ≠ [] ∧ TrimSpace s = s ∧ IsSpace (DecodeRuneInString s).1 = false ∧
    IsSpace (DecodeLastRuneInString s).1 = false

/-! ## Standard library: `strconv.ParseInt`, `io`, `encoding/json` -/

/-- Sentinel `strconv.ErrSyntax`. -/
def strconvErrSyntax : GoError := GoError.other 101 "invalid syntax"

/-- Sentinel `strconv.ErrRange`. -/
def strconvErrRange : GoError := GoError.other 102 "value out of range"

/-- A `*strconv.NumError` of `ParseInt`; it unwraps to `err`. (Its message
also quotes the input, which is left out of the text here.) -/
def NumError (err : GoError) : GoError :=
  GoError.wrap ("strconv.ParseInt: parsing: " ++ err.Error) err

/-- Sentinel `io.EOF`. -/
def ioEOF : GoError := GoError.other 111 "EOF"

/-- A `*json.SyntaxError` or `io.ErrUnexpectedEOF`: the input is not the
start of a JSON value. (The two and their message texts are not told apart.) -/
def jsonSyntaxError : GoError := GoError.other 121 "json: syntax error"

/-- A `*json.UnmarshalTypeError`: a JSON value does not fit the Go type of
its destination. -/
def jsonUnmarshalTypeError : GoError := GoError.other 122 "json: cannot unmarshal"

/-- The digit loop of `strconv.ParseUint(s, 10, 64)`: `n` is the value read
so far; the result is the value and `true` when it is in range, `none` on a
byte that is not a decimal digit seen before any overflow. -/
def parseUintLoop : GoString → Nat → Option (Nat × Bool)
  | [], n => some (n, true)
  | c :: rest, n =>
    if 0x30 ≤ c.val ∧ c.val ≤ 0x39 then
      if n ≥ (2 ^ 64 - 1) / 10 + 1 then some (2 ^ 64 - 1, false)
      else if n * 10 + (c.val - 0x30) > 2 ^ 64 - 1 then some (2 ^ 64 - 1, false)
      else parseUintLoop rest (n * 10 + (c.val - 0x30))
    else none

/-- Function `strconv.ParseInt(s, 10, 64)`: the value and the error. -/
def ParseInt (s : GoString) : Int × Option GoError :=
  match s with
  | [] => (0, some (NumError strconvErrSyntax))
  | c :: rest =>
    let neg := c.val = 0x2D
    let digits := if c.val = 0x2B ∨ c.val = 0x2D then rest else s
    match digits with
    | [] => (0, some (NumError strconvErrSyntax))
    | _ :: _ =>
      match parseUintLoop digits 0 with
      | none => (0, some (NumError strconvErrSyntax))
      | some (un, inRange) =>
        if ¬ neg ∧ (un ≥ 2 ^ 63 ∨ ¬ inRange) then
          (2 ^ 63 - 1, some (NumError strconvErrRange))
        else if neg ∧ (un > 2 ^ 63 ∨ ¬ inRange) then
          (-(2 ^ 63), some (NumError strconvErrRange))
        else if neg then (-(un : Int), none)
        else ((un : Int), none)

/-- A parsed JSON value. A number keeps its literal text. -/
inductive JSON where
  | null
  | bool (b : Bool)
  | number (lit : GoString)
  | string (s : GoString)
  | array (elems : List JSON)
  | object (members : List (GoString × JSON))

/-- Function `json.isSpace`: the four JSON white-space bytes. -/
def isJSONSpace (c : Byte) : Bool :=
  c.val == 0x20 || c.val == 0x09 || c.val == 0x0D || c.val == 0x0A

/-- Skip JSON white space. -/
def skipSpace : GoString → GoString
  | [] => []
  | c :: rest => if isJSONSpace c then skipSpace rest else c :: rest

/-- Value of a hexadecimal digit, if the byte is one. -/
def hexVal (c : Byte) : Option Nat :=
  if 0x30 ≤ c.val ∧ c.val ≤ 0x39 then some (c.val - 0x30)
  else if 0x61 ≤ c.val ∧ c.val ≤ 0x66 then some (c.val - 0x61 + 10)
  else if 0x41 ≤ c.val ∧ c.val ≤ 0x46 then some (c.val - 0x41 + 10)
  else none

/-- Function `json.getu4` without the leading `\u`: the value of the first
four bytes read as hexadecimal digits. -/
def getu4 (s : GoString) : Option Nat :=
  match s with
  | a :: b :: c :: d :: _ =>
    match hexVal a, hexVal b, hexVal c, hexVal d with
    | some x, some y, some z, some w => some (x * 4096 + y * 256 + z * 16 + w)
    | _, _, _, _ => none
  | _ => none

/-- Function `utf8.EncodeRune` (as `utf8.AppendRune` to the empty slice):
surrogates and values above U+10FFFF are written as U+FFFD. -/
def EncodeRune (r : Nat) : GoString :=
  if r ≤ 0x7F then [Fin.ofNat r]
  else if r ≤ 0x7FF then [Fin.ofNat (0xC0 + r / 64), Fin.ofNat (0x80 + r % 64)]
  else if r > 0x10FFFF ∨ (0xD800 ≤ r ∧ r ≤ 0xDFFF) then [0xEF, 0xBF, 0xBD]
  else if r ≤ 0xFFFF then
    [Fin.ofNat (0xE0 + r / 4096), Fin.ofNat (0x80 + r / 64 % 64), Fin.ofNat (0x80 + r % 64)]
  else
    [Fin.ofNat (0xF0 + r / 262144), Fin.ofNat (0x80 + r / 4096 % 64),
      Fin.ofNat (0x80 + r / 64 % 64), Fin.ofNat (0x80 + r % 64)]

/-- Function `utf16.DecodeRune`: the code point of a surrogate pair, U+FFFD
when the two values are not a high and a low surrogate. -/
def utf16DecodeRune (r1 r2 : Nat) : Nat :=
  if 0xD800 ≤ r1 ∧ r1 < 0xDC00 ∧ 0xDC00 ≤ r2 ∧ r2 < 0xE000 then
    (r1 - 0xD800) * 1024 + (r2 - 0xDC00) + 0x10000
  else RuneError

/-- The second escape of a surrogate pair: `getu4` on input that must start
with `\u`. -/
def getu4Esc (s : GoString) : Option Nat :=
  match s with
  | b :: u :: rest => if b.val = 0x5C ∧ u.val = 0x75 then getu4 rest else none
  | _ => none

/-- A JSON string literal after its opening quote (the scanner's string
states together with `json.unquoteBytes`): the unquoted bytes, coerced to
valid UTF-8, and the input after the closing quote; `none` when the literal
is malformed or unterminated. -/
def unquoteLoop : Nat → GoString → Option (GoString × GoString)
  | 0, _ => none
  | k + 1, s =>
    match s with
    | [] => none
    | c :: rest =>
      if c.val = 0x22 then some ([], rest)
      else if c.val = 0x5C then
        match rest with
        | [] => none
        | e :: rest1 =>
          if e.val = 0x22 ∨ e.val = 0x5C ∨ e.val = 0x2F then
            (unquoteLoop k rest1).map (fun p => (e :: p.1, p.2))
          else if e.val = 0x62 then (unquoteLoop k rest1).map (fun p => (0x08 :: p.1, p.2))
          else if e.val = 0x66 then (unquoteLoop k rest1).map (fun p => (0x0C :: p.1, p.2))
          else if e.val = 0x6E then (unquoteLoop k rest1).map (fun p => (0x0A :: p.1, p.2))
          else if e.val = 0x72 then (unquoteLoop k rest1).map (fun p => (0x0D :: p.1, p.2))
          else if e.val = 0x74 then (unquoteLoop k rest1).map (fun p => (0x09 :: p.1, p.2))
          else if e.val = 0x75 then
            match getu4 rest1 with
            | none => none
            | some rr =>
              if 0xD800 ≤ rr ∧ rr < 0xE000 then
                match getu4Esc (rest1.drop 4) with
                | some rr1 =>
                  if utf16DecodeRune rr rr1 ≠ RuneError then
                    (unquoteLoop k (rest1.drop 10)).map
                      (fun p => (EncodeRune (utf16DecodeRune rr rr1) ++ p.1, p.2))
                  else
                    (unquoteLoop k (rest1.drop 4)).map
                      (fun p => (EncodeRune RuneError ++ p.1, p.2))
                | none =>
                  (unquoteLoop k (rest1.drop 4)).map
                    (fun p => (EncodeRune RuneError ++ p.1, p.2))
              else
                (unquoteLoop k (rest1.drop 4)).map (fun p => (EncodeRune rr ++ p.1, p.2))
          else none
      else if c.val < 0x20 then none
      else if c.val < 0x80 then (unquoteLoop k rest).map (fun p => (c :: p.1, p.2))
      else
        (unquoteLoop k (s.drop (DecodeRuneInString s).2)).map
          (fun p => (EncodeRune (DecodeRuneInString s).1 ++ p.1, p.2))

/-- A JSON string literal after its opening quote. -/
def parseString (s : GoString) : Option (GoString × GoString) :=
  unquoteLoop (s.length + 1) s

/-- Split off the longest prefix of decimal digits. -/
def spanDigits : GoString → GoString × GoString
  | [] => ([], [])
  | c :: rest =>
    if 0x30 ≤ c.val ∧ c.val ≤ 0x39 then ((c :: (spanDigits rest).1), (spanDigits rest).2)
    else ([], c :: rest)

/-- A JSON number literal (the scanner's number states): optional minus, an
integer part without superfluous leading zero, an optional fraction and an
optional exponent. The result is the literal and the input after it. -/
def parseNumber (s : GoString) : Option (GoString × GoString) :=
  let (sign, s1) : GoString × GoString :=
    match s with
    | c :: rest => if c.val = 0x2D then ([c], rest) else ([], s)
    | [] => ([], s)
  let int : Option (GoString × GoString) :=
    match s1 with
    | c :: rest =>
      if c.val = 0x30 then some ([c], rest)
      else if 0x31 ≤ c.val ∧ c.val ≤ 0x39 then
        some (c :: (spanDigits rest).1, (spanDigits rest).2)
      else none
    | [] => none
  match int with
  | none => none
  | some (ip, s2) =>
    let frac : Option (GoString × GoString) :=
      match s2 with
      | c :: rest =>
        if c.val = 0x2E then
          if (spanDigits rest).1 = [] then none
          else some (c :: (spanDigits rest).1, (spanDigits rest).2)
        else some ([], s2)
      | [] => some ([], s2)
    match frac with
    | none => none
    | some (fp, s3) =>
      match s3 with
      | c :: rest =>
        if c.val = 0x65 ∨ c.val = 0x45 then
          let (es, s4) : GoString × GoString :=
            match rest with
            | d :: rest1 => if d.val = 0x2B ∨ d.val = 0x2D then ([d], rest1) else ([], rest)
            | [] => ([], rest)
          if (spanDigits s4).1 = [] then none
          else some (sign ++ ip ++ fp ++ c :: es ++ (spanDigits s4).1, (spanDigits s4).2)
        else some (sign ++ ip ++ fp, s3)
      | [] => some (sign ++ ip ++ fp, s3)

/-- Constant `json.maxNestingDepth`. -/
def maxNestingDepth : Nat := 10000

mutual
/-- One JSON value at the head of the input, after optional white space: the
value and the input that follows it; `none` on a syntax error, on input that
ends early, and on nesting deeper than `maxNestingDepth`. `depth` counts the
enclosing arrays and objects. -/
def parseValue : Nat → Nat → GoString → Option (JSON × GoString)
  | 0, _, _ => none
  | fuel + 1, depth, s =>
    match skipSpace s with
    | [] => none
    | c :: rest =>
      if c.val = 0x7B then
        if depth + 1 > maxNestingDepth then none
        else
          match skipSpace rest with
          | [] => none
          | c1 :: rest1 =>
            if c1.val = 0x7D then some (JSON.object [], rest1)
            else (parseMembers fuel (depth + 1) rest).map (fun p => (JSON.object p.1, p.2))
      else if c.val = 0x5B then
        if depth + 1 > maxNestingDepth then none
        else
          match skipSpace rest with
          | [] => none
          | c1 :: rest1 =>
            if c1.val = 0x5D then some (JSON.array [], rest1)
            else (parseElements fuel (depth + 1) rest).map (fun p => (JSON.array p.1, p.2))
      else if c.val = 0x22 then (parseString rest).map (fun p => (JSON.string p.1, p.2))
      else if c.val = 0x2D ∨ (0x30 ≤ c.val ∧ c.val ≤ 0x39) then
        (parseNumber (c :: rest)).map (fun p => (JSON.number p.1, p.2))
      else if (c :: rest).take 4 = [0x74, 0x72, 0x75, 0x65] then
        some (JSON.bool true, rest.drop 3)
      else if (c :: rest).take 5 = [0x66, 0x61, 0x6C, 0x73, 0x65] then
        some (JSON.bool false, rest.drop 4)
      else if (c :: rest).take 4 = [0x6E, 0x75, 0x6C, 0x6C] then
        some (JSON.null, rest.drop 3)
      else none
/-- The members of a non-empty object, up to and including the closing
brace. -/
def parseMembers : Nat → Nat → GoString → Option (List (GoString × JSON) × GoString)
  | 0, _, _ => none
  | fuel + 1, depth, s =>
    match skipSpace s with
    | [] => none
    | q :: rest =>
      if q.val = 0x22 then
        match parseString rest with
        | none => none
        | some (key, rest1) =>
          match skipSpace rest1 with
          | [] => none
          | colon :: rest2 =>
            if colon.val = 0x3A then
              match parseValue fuel depth rest2 with
              | none => none
              | some (v, rest3) =>
                match skipSpace rest3 with
                | [] => none
                | sep :: rest4 =>
                  if sep.val = 0x7D then some ([(key, v)], rest4)
                  else if sep.val = 0x2C then
                    (parseMembers fuel depth rest4).map (fun p => ((key, v) :: p.1, p.2))
                  else none
            else none
      else none
/-- The elements of a non-empty array, up to and including the closing
bracket. -/
def parseElements : Nat → Nat → GoString → Option (List JSON × GoString)
  | 0, _, _ => none
  | fuel + 1, depth, s =>
    match parseValue fuel depth s with
    | none => none
    | some (v, rest) =>
      match skipSpace rest with
      | [] => none
      | sep :: rest1 =>
        if sep.val = 0x5D then some ([v], rest1)
        else if sep.val = 0x2C then
          (parseElements fuel depth rest1).map (fun p => (v :: p.1, p.2))
        else none
end

/-- The first JSON value of the input, as `Decoder.Decode` reads it from a
stream: what follows the value is not looked at. -/
def parseJSON (s : GoString) : Option (JSON × GoString) :=
  parseValue (s.length + 1) 0 s

/-- Function `unicode.SimpleFold` iterated to the smallest rune of the fold
orbit, for the runes whose orbit holds an ASCII letter: U+017F (long s) goes
to `S` and U+212A (Kelvin sign) to `K`. Every other non-ASCII rune folds to a
non-ASCII rune and is left as it is, which decides the comparison with an
ASCII field name in the same way. -/
def foldRune (r : Nat) : Nat :=
  if r = 0x17F then 0x53 else if r = 0x212A then 0x4B else r

/-- Loop of `json.foldName`: ASCII letters in upper case, other runes
folded. -/
def foldNameLoop : Nat → GoString → GoString
  | 0, _ => []
  | k + 1, s =>
    match s with
    | [] => []
    | c :: rest =>
      if c.val < 0x80 then
        (if 0x61 ≤ c.val ∧ c.val ≤ 0x7A then Fin.ofNat (c.val - 0x20) else c)
          :: foldNameLoop k rest
      else
        EncodeRune (foldRune (DecodeRuneInString s).1)
          ++ foldNameLoop k (s.drop (DecodeRuneInString s).2)

/-- Function `json.foldName`. -/
def foldName (s : GoString) : GoString := foldNameLoop s.length s

/-- An object key selects the struct field tagged `name`: an exact match, or
a match under case folding. -/
def keyMatches (name key : GoString) : Bool :=
  key == name || foldName key == foldName name

/-- Keep the first error (`decodeState.saveError`). -/
def saveError (saved new : Option GoError) : Option GoError :=
  match saved with
  | some e => some e
  | none => new

/-- Store a JSON value into a Go `string`: a string is stored, `null` is
ignored, anything else is a type error and leaves the destination alone. -/
def storeString (dst : GoString) (v : JSON) : GoString × Option GoError :=
  match v with
  | .string s => (s, none)
  | .null => (dst, none)
  | _ => (dst, some jsonUnmarshalTypeError)

/-- Store a JSON value into a Go `int64`: a number whose literal `ParseInt`
accepts is stored, `null` is ignored, anything else is a type error. -/
def storeInt64 (dst : Int) (v : JSON) : Int × Option GoError :=
  match v with
  | .number lit =>
    match ParseInt lit with
    | (n, none) => (n, none)
    | (_, some _) => (dst, some jsonUnmarshalTypeError)
  | .null => (dst, none)
  | _ => (dst, some jsonUnmarshalTypeError)

/-- The bytes of the field name `header`. -/
def nameHeader : GoString := [0x68, 0x65, 0x61, 0x64, 0x65, 0x72]

/-- The bytes of the field name `data`. -/
def nameData : GoString := [0x64, 0x61, 0x74, 0x61]

/-- The bytes of the field name `id`. -/
def nameId : GoString := [0x69, 0x64]

/-- The bytes of the field name `title`. -/
def nameTitle : GoString := [0x74, 0x69, 0x74, 0x6C, 0x65]

/-- The bytes of the field name `content`. -/
def nameContent : GoString := [0x63, 0x6F, 0x6E, 0x74, 0x65, 0x6E, 0x74]

/-- The bytes of the field name `signee`. -/
def nameSignee : GoString := [0x73, 0x69, 0x67, 0x6E, 0x65, 0x65]

/-- Decode the members of a JSON object into a `Content`, in order; unknown
keys are skipped, the first type error is kept and decoding goes on. -/
def objectContent : List (GoString × JSON) → Content → Option GoError →
    Content × Option GoError
  | [], c, err => (c, err)
  | (key, v) :: rest, c, err =>
    if keyMatches nameHeader key then
      objectContent rest { c with Header := (storeString c.Header v).1 }
        (saveError err (storeString c.Header v).2)
    else if keyMatches nameData key then
      objectContent rest { c with Data := (storeString c.Data v).1 }
        (saveError err (storeString c.Data v).2)
    else objectContent rest c err

/-- Decode a JSON value into a `Content` struct: an object fills the fields,
`null` is ignored, anything else is a type error. -/
def valueContent (c : Content) (v : JSON) : Content × Option GoError :=
  match v with
  | .object members => objectContent members c none
  | .null => (c, none)
  | _ => (c, some jsonUnmarshalTypeError)

/-- Decode the members of a JSON object into a `Document`. -/
def objectDocument : List (GoString × JSON) → Document → Option GoError →
    Document × Option GoError
  | [], d, err => (d, err)
  | (key, v) :: rest, d, err =>
    if keyMatches nameId key then
      objectDocument rest { d with ID := (storeInt64 d.ID v).1 }
        (saveError err (storeInt64 d.ID v).2)
    else if keyMatches nameTitle key then
      objectDocument rest { d with Title := (storeString d.Title v).1 }
        (saveError err (storeString d.Title v).2)
    else if keyMatches nameContent key then
      objectDocument rest { d with Content := (valueContent d.Content v).1 }
        (saveError err (valueContent d.Content v).2)
    else if keyMatches nameSignee key then
      objectDocument rest { d with Signee := (storeString d.Signee v).1 }
        (saveError err (storeString d.Signee v).2)
    else objectDocument rest d err

/-- Decode a JSON value into a `Document` struct. -/
def valueDocument (d : Document) (v : JSON) : Document × Option GoError :=
  match v with
  | .object members => objectDocument members d none
  | .null => (d, none)
  | _ => (d, some jsonUnmarshalTypeError)

/-- Call `json.NewDecoder(body).Decode(&d)`: read the first JSON value of the
body and decode it into `d`. An empty or all-blank body gives `io.EOF`. -/
def DecodeDocument (body : GoString) (d : Document) : Document × Option GoError :=
  match parseJSON body with
  | none => (d, some (if skipSpace body = [] then ioEOF else jsonSyntaxError))
  | some (v, _) => valueDocument d v

/-- Call `json.Unmarshal(data, &c)` with `c` a `*Content`: the data must be
one JSON value, with nothing but white space around it; it is then decoded
into the struct `c` points to (a `null` only clears the local pointer). -/
def UnmarshalContent (data : GoString) (c : Content) : Content × Option GoError :=
  match parseJSON data with
  | none => (c, some jsonSyntaxError)
  | some (v, rest) =>
    if skipSpace rest = [] then valueContent c v else (c, some jsonSyntaxError)

/-- Lower-case hexadecimal digit of a value below 16. -/
def hexDigit (n : Nat) : Byte :=
  if n < 10 then Fin.ofNat (0x30 + n) else Fin.ofNat (0x61 + (n - 10))

/-- Table `json.htmlSafeSet`: the ASCII bytes written as they are. -/
def htmlSafe (c : Byte) : Bool :=
  0x20 ≤ c.val && c.val < 0x80 && c.val != 0x22 && c.val != 0x26 && c.val != 0x3C
    && c.val != 0x3E && c.val != 0x5C

/-- The escape `json.appendString` writes for an ASCII byte outside
`htmlSafeSet`. (Releases before Go 1.22 write `\u0008` and `\u000c` for
backspace and form feed; both forms decode to the same byte.) -/
def escapeByte (c : Byte) : GoString :=
  if c.val = 0x5C ∨ c.val = 0x22 then [0x5C, c]
  else if c.val = 0x08 then [0x5C, 0x62]
  else if c.val = 0x0C then [0x5C, 0x66]
  else if c.val = 0x0A then [0x5C, 0x6E]
  else if c.val = 0x0D then [0x5C, 0x72]
  else if c.val = 0x09 then [0x5C, 0x74]
  else [0x5C, 0x75, 0x30, 0x30, hexDigit (c.val / 16), hexDigit (c.val % 16)]

/-- Loop of `json.appendString` with HTML escaping: the text between the
quotes. Invalid UTF-8 is written as the escape of U+FFFD; U+2028 and U+2029
are escaped. -/
def appendStringLoop : Nat → GoString → GoString
  | 0, _ => []
  | k + 1, s =>
    match s with
    | [] => []
    | c :: rest =>
      if c.val < 0x80 then
        if htmlSafe c then c :: appendStringLoop k rest
        else escapeByte c ++ appendStringLoop k rest
      else if (DecodeRuneInString s).1 = RuneError ∧ (DecodeRuneInString s).2 = 1 then
        [0x5C, 0x75, 0x66, 0x66, 0x66, 0x64] ++ appendStringLoop k rest
      else if (DecodeRuneInString s).1 = 0x2028 ∨ (DecodeRuneInString s).1 = 0x2029 then
        [0x5C, 0x75, 0x32, 0x30, 0x32, hexDigit ((DecodeRuneInString s).1 % 16)]
          ++ appendStringLoop k (s.drop (DecodeRuneInString s).2)
      else
        s.take (DecodeRuneInString s).2
          ++ appendStringLoop k (s.drop (DecodeRuneInString s).2)

/-- A Go string as a JSON string literal (`json.appendString`). -/
def marshalString (s : GoString) : GoString :=
  0x22 :: appendStringLoop s.length s ++ [0x22]

/-- Call `json.Marshal(c)` for a `Content`: the object with the members
`header` and `data`, in that order; it cannot fail. -/
def MarshalContent (c : Content) : GoString :=
  [0x7B, 0x22] ++ nameHeader ++ [0x22, 0x3A] ++ marshalString c.Header
    ++ [0x2C, 0x22] ++ nameData ++ [0x22, 0x3A] ++ marshalString c.Data ++ [0x7D]

/-- A value handed over by a database driver (`driver.Value`). -/
inductive DriverValue where
  | null
  | int (v : Int)
  | bytes (b : GoString)
  | string (s : GoString)
deriving DecidableEq, Repr

/-- Method `Content.Scan`. The type assertion `src.([]uint8)` panics on any
value that is not a byte slice: the result is then `none`. -/
def Content.Scan (c : Content) (src : DriverValue) : Option (Content × Option GoError) :=
  match src with
  | .bytes val => some (UnmarshalContent val c)
  | _ => none

/-! ## package utils: the response envelope -/

/-- The `data` payload of the envelope, a Go `interface{}`: the untyped
`nil`, a `*model.Document` or a `[]*model.Document` (each possibly nil). -/
inductive Payload where
  | nil
  | document (d : Option Document)
  | documents (ds : Option (List Document))
deriving DecidableEq, Repr

/-- The envelope (`utils.HttpResponse`). -/
structure HttpResponse where
  Code : Int
  Status : Bool
  Data : Payload
  Error : String
deriving DecidableEq, Repr

/-- What a handler leaves in its `http.ResponseWriter`: the status passed to
`WriteHeader` and the envelope encoded into the body. -/
structure ResponseRecorder where
  Code : Int
  Body : HttpResponse
deriving DecidableEq, Repr

/-- Function `utils.JsonRespond`. -/
def JsonRespond (status : Bool) (code : Int) (err : Option GoError) (data : Payload) :
    ResponseRecorder :=
  let response : HttpResponse := { Status := status, Code := code, Data := data, Error := "" }
  let response :=
    match err with
    | some e => { response with Error := e.Error }
    | none => response
  { Code := code, Body := response }

/-- Constant `http.StatusOK`. -/
def StatusOK : Int := 200

/-- Constant `http.StatusCreated`. -/
def StatusCreated : Int := 201

/-- Constant `http.StatusBadRequest`. -/
def StatusBadRequest : Int := 400

/-- Constant `http.StatusNotFound`. -/
def StatusNotFound : Int := 404

/-- Constant `http.StatusUnprocessableEntity`. -/
def StatusUnprocessableEntity : Int := 422

/-- Constant `http.StatusInternalServerError`. -/
def StatusInternalServerError : Int := 500

/-! ## package handler -/

/-- Interface `documentServiceInterface`, over a state `τ`. -/
structure documentServiceInterface (τ : Type) where
  Get : Int → τ → DocResult × τ
  Create : Document → τ → DocResult × τ
  Update : Document → τ → DocResult × τ
  Delete : Int → τ → Option GoError × τ
  GetAll : τ → DocsResult × τ

/-- What a handler acts on: the state behind `service.DocumentService` and
the log of the calls made to the service so far. -/
structure ServiceWorld (τ : Type) where
  state : τ
  calls : List ServiceOp
deriving DecidableEq, Repr

/-- The service of the repository, `&documentService{}`, as an instance of
the interface; its state is the repository world. -/
def DocumentService {σ : Type} (repo : documentRepositoryInterface σ) :
    documentServiceInterface (RepoWorld σ) where
  Get := documentService.Get repo
  Create := documentService.Create repo
  Update := documentService.Update repo
  Delete := documentService.Delete repo
  GetAll := documentService.GetAll repo

/-- The test double `serviceMock` of the handler tests: every method answers
with a fixed result and keeps no state. -/
def serviceMock (get create update : DocResult) (delete : Option GoError)
    (getAll : DocsResult) : documentServiceInterface Unit where
  Get := fun _ s => (get, s)
  Create := fun _ s => (create, s)
  Update := fun _ s => (update, s)
  Delete := fun _ s => (delete, s)
  GetAll := fun s => (getAll, s)

/-- An HTTP request as the handlers read it: the body and the route
variables (`mux.Vars`). -/
structure Request where
  Body : GoString
  Vars : List (String × GoString)
deriving DecidableEq, Repr

/-- Expression `mux.Vars(r)[name]`: the variable, or the empty string when
the route set none. -/
def muxVar (r : Request) (name : String) : GoString :=
  (r.Vars.lookup name).getD []

/-- The zero value of `model.Document` (`var d model.Document`). -/
def zeroDocument : Document := ⟨0, [], ⟨[], []⟩, []⟩

/-- Function `handler.CreateHandler`. -/
def CreateHandler {τ : Type} (svc : documentServiceInterface τ) (r : Request)
    (w : ServiceWorld τ) : ResponseRecorder × ServiceWorld τ :=
  match DecodeDocument r.Body zeroDocument with
  | (_, some err) => (JsonRespond false StatusBadRequest (some err) Payload.nil, w)
  | (newDocument, none) =>
    match svc.Create newDocument w.state with
    | ((_, some err), st) =>
      if errorsIs err GoError.TitleInvalidValue || errorsIs err GoError.SigneeInvalidValue then
        (JsonRespond false StatusUnprocessableEntity (some err) Payload.nil,
          ⟨st, w.calls ++ [ServiceOp.Create newDocument]⟩)
      else
        (JsonRespond false StatusInternalServerError (some err) Payload.nil,
          ⟨st, w.calls ++ [ServiceOp.Create newDocument]⟩)
    | ((document, none), st) =>
      (JsonRespond true StatusCreated none (Payload.document document),
        ⟨st, w.calls ++ [ServiceOp.Create newDocument]⟩)

/-- Function `handler.UpdateHandler`. -/
def UpdateHandler {τ : Type} (svc : documentServiceInterface τ) (r : Request)
    (w : ServiceWorld τ) : ResponseRecorder × ServiceWorld τ :=
  match DecodeDocument r.Body zeroDocument with
  | (_, some err) => (JsonRespond false StatusBadRequest (some err) Payload.nil, w)
  | (updatedDocument, none) =>
    match ParseInt (muxVar r "id") with
    | (_, some err) => (JsonRespond false StatusBadRequest (some err) Payload.nil, w)
    | (id, none) =>
      let updatedDocument := { updatedDocument with ID := id }
      match svc.Update updatedDocument w.state with
      | ((_, some err), st) =>
        if errorsIs err GoError.ErrNoRows then
          (JsonRespond false StatusNotFound (some err) Payload.nil,
            ⟨st, w.calls ++ [ServiceOp.Update updatedDocument]⟩)
        else if errorsIs err GoError.TitleInvalidValue
            || errorsIs err GoError.SigneeInvalidValue then
          (JsonRespond false StatusUnprocessableEntity (some err) Payload.nil,
            ⟨st, w.calls ++ [ServiceOp.Update updatedDocument]⟩)
        else
          (JsonRespond false StatusInternalServerError (some err) Payload.nil,
            ⟨st, w.calls ++ [ServiceOp.Update updatedDocument]⟩)
      | ((document, none), st) =>
        (JsonRespond true StatusOK none (Payload.document document),
          ⟨st, w.calls ++ [ServiceOp.Update updatedDocument]⟩)

/-- Function `handler.DeleteHandler`. -/
def DeleteHandler {τ : Type} (svc : documentServiceInterface τ) (r : Request)
    (w : ServiceWorld τ) : ResponseRecorder × ServiceWorld τ :=
  match ParseInt (muxVar r "id") with
  | (_, some err) => (JsonRespond false StatusBadRequest (some err) Payload.nil, w)
  | (id, none) =>
    match svc.Delete id w.state with
    | (some err, st) =>
      if errorsIs err GoError.ErrNoRows then
        (JsonRespond false StatusNotFound (some err) Payload.nil,
          ⟨st, w.calls ++ [ServiceOp.Delete id]⟩)
      else
        (JsonRespond false StatusInternalServerError (some err) Payload.nil,
          ⟨st, w.calls ++ [ServiceOp.Delete id]⟩)
    | (none, st) =>
      (JsonRespond true StatusOK none Payload.nil, ⟨st, w.calls ++ [ServiceOp.Delete id]⟩)

/-- Function `handler.GetByIdHandler`. -/
def GetByIdHandler {τ : Type} (svc : documentServiceInterface τ) (r : Request)
    (w : ServiceWorld τ) : ResponseRecorder × ServiceWorld τ :=
  match ParseInt (muxVar r "id") with
  | (_, some err) => (JsonRespond false StatusBadRequest (some err) Payload.nil, w)
  | (id, none) =>
    match svc.Get id w.state with
    | ((_, some err), st) =>
      if errorsIs err GoError.ErrNoRows then
        (JsonRespond false StatusNotFound (some err) Payload.nil,
          ⟨st, w.calls ++ [ServiceOp.Get id]⟩)
      else
        (JsonRespond false StatusInternalServerError (some err) Payload.nil,
          ⟨st, w.calls ++ [ServiceOp.Get id]⟩)
    | ((document, none), st) =>
      (JsonRespond true StatusOK none (Payload.document document),
        ⟨st, w.calls ++ [ServiceOp.Get id]⟩)

/-- Function `handler.GetAllHandler`. -/
def GetAllHandler {τ : Type} (svc : documentServiceInterface τ) (_r : Request)
    (w : ServiceWorld τ) : ResponseRecorder × ServiceWorld τ :=
  match svc.GetAll w.state with
  | ((_, some err), st) =>
    (JsonRespond false StatusInternalServerError (some err) Payload.nil,
      ⟨st, w.calls ++ [ServiceOp.GetAll]⟩)
  | ((documents, none), st) =>
    (JsonRespond true StatusOK none (Payload.documents documents),
      ⟨st, w.calls ++ [ServiceOp.GetAll]⟩)

/-- The response code the specification's classification assigns to a service
error, one rule for all handlers: 422 for the two validation sentinels, 404
for the not-found sentinel, 500 otherwise. -/
def specErrorCode (err : GoError) : Int :=
  if errorsIs err GoError.TitleInvalidValue || errorsIs err GoError.SigneeInvalidValue then
    StatusUnprocessableEntity
  else if errorsIs err GoError.ErrNoRows then StatusNotFound
  else StatusInternalServerError

/-- Loop of `utf8.ValidString`. -/
def validLoop : Nat → GoString → Bool
  | 0, s => s.isEmpty
  | k + 1, s =>
    match s with
    | [] => true
    | _ :: _ =>
      if DecodeRuneInString s = (RuneError, 1) then false
      else validLoop k (s.drop (DecodeRuneInString s).2)

/-- Function `utf8.ValidString`: the string is a sequence of valid UTF-8
encodings. -/
def ValidString (s : GoString) : Bool := validLoop s.length s

/-- Loop of the coercion to valid UTF-8 that `encoding/json` applies to a
string: every byte that is not part of a valid encoding becomes U+FFFD. -/
def coerceLoop : Nat → GoString → GoString
  | 0, _ => []
  | k + 1, s =>
    match s with
    | [] => []
    | _ :: t =>
      if DecodeRuneInString s = (RuneError, 1) then [0xEF, 0xBF, 0xBD] ++ coerceLoop k t
      else
        s.take (DecodeRuneInString s).2 ++ coerceLoop k (s.drop (DecodeRuneInString s).2)

/-- A string coerced to valid UTF-8, byte by invalid byte. -/
def coerceUTF8 (s : GoString) : GoString := coerceLoop s.length s

/-! ## package main: the route table, served by `gorilla/mux` -/

/-- The handlers registered in `main`. -/
inductive HandlerName where
  | CreateHandler
  | UpdateHandler
  | DeleteHandler
  | GetByIdHandler
  | GetAllHandler
deriving DecidableEq, Repr

/-- One route of the table: the literal part of its path template, whether
the variable `{id:[0-9]+}` follows it, the methods it is restricted to (none:
any method) and its handler. The template is compiled to a regular expression
anchored at both ends. -/
structure Route where
  literal : GoString
  idVar : Bool
  methods : List String
  handler : HandlerName
deriving DecidableEq, Repr

/-- The route table of `main`, in registration order. -/
def mainRoutes : List Route :=
  [⟨str "/documents", false, ["POST"], HandlerName.CreateHandler⟩,
    ⟨str "/documents/", true, ["PUT"], HandlerName.UpdateHandler⟩,
    ⟨str "/documents/", true, ["DELETE"], HandlerName.DeleteHandler⟩,
    ⟨str "/documents/", true, [], HandlerName.GetByIdHandler⟩,
    ⟨str "/documents", false, [], HandlerName.GetAllHandler⟩]

/-- Every byte is a decimal digit (the pattern `[0-9]` of the route
variable). -/
def digitsOnly (s : GoString) : Bool :=
  s.all (fun c => 0x30 ≤ c.val && c.val ≤ 0x39)

/-- What is left of `s` after the prefix `p`, if `s` starts with `p`. -/
def stripPrefix : GoString → GoString → Option GoString
  | [], s => some s
  | _ :: _, [] => none
  | a :: p, b :: s => if a = b then stripPrefix p s else none

/-- The path matcher of a route: the template is anchored at both ends, and
the variable must be a non-empty string of digits. The result is the route
variables. -/
def Route.matchPath (rt : Route) (path : GoString) : Option (List (String × GoString)) :=
  if rt.idVar then
    match stripPrefix rt.literal path with
    | some id => if id ≠ [] ∧ digitsOnly id = true then some [("id", id)] else none
    | none => none
  else if path = rt.literal then some [] else none

/-- The outcome of matching a request against the routes. -/
inductive RouteMatch where
  | handle (h : HandlerName) (vars : List (String × GoString))
  | methodNotAllowed
  | notFound
deriving DecidableEq, Repr

/-- Method `Router.Match`: the first route whose path and method both match
wins; when only paths matched, the method is not allowed; otherwise nothing
is found. `mismatch` records that some route matched by path but not by
method. -/
def matchRoutes : List Route → String → GoString → Bool → RouteMatch
  | [], _, _, mismatch => if mismatch then RouteMatch.methodNotAllowed else RouteMatch.notFound
  | rt :: rest, method, path, mismatch =>
    match rt.matchPath path with
    | none => matchRoutes rest method path mismatch
    | some vars =>
      if rt.methods = [] ∨ method ∈ rt.methods then RouteMatch.handle rt.handler vars
      else matchRoutes rest method path true

/-- The elements of a path between its slashes. -/
def splitSlash : GoString → List GoString
  | [] => [[]]
  | c :: rest =>
    if c.val = 0x2F then [] :: splitSlash rest
    else
      match splitSlash rest with
      | [] => [[c]]
      | e :: es => (c :: e) :: es

/-- The elements of a rooted path after `path.Clean`: empty and `.` elements
are dropped, `..` drops the element before it (or nothing at the root).
`stack` holds the elements kept so far, last first. -/
def cleanElems : List GoString → List GoString → List GoString
  | [], stack => stack.reverse
  | e :: es, stack =>
    if e = [] ∨ e = [0x2E] then cleanElems es stack
    else if e = [0x2E, 0x2E] then cleanElems es stack.tail
    else cleanElems es (e :: stack)

/-- A rooted path rebuilt from its elements. -/
def joinRooted : List GoString → GoString
  | [] => [0x2F]
  | [e] => 0x2F :: e
  | e :: es => 0x2F :: e ++ joinRooted es

/-- Function `mux.cleanPath`: the canonical form of a request path
(`path.Clean` of the rooted path, keeping a trailing slash). -/
def cleanPath (p : GoString) : GoString :=
  if p = [] then [0x2F]
  else
    let p := if (p.head?.map (fun c => c.val)) = some 0x2F then p else 0x2F :: p
    let np := joinRooted (cleanElems (splitSlash p) [])
    if (p.getLast?.map (fun c => c.val)) = some 0x2F ∧ np ≠ [0x2F] then np ++ [0x2F] else np

/-- An HTTP request as the router reads it: the method, the decoded path
of the URL and the body. -/
structure HttpRequest where
  Method : String
  Path : GoString
  Body : GoString
deriving DecidableEq, Repr

/-- What the server answers: the envelope a handler wrote, or the reply of
the router itself when no handler ran (not found, method not allowed, or a
redirect to the URL with the path in canonical form). -/
inductive HttpReply where
  | envelope (rec : ResponseRecorder)
  | notFound
  | methodNotAllowed
  | movedPermanently (location : GoString)
deriving DecidableEq, Repr

/-- The HTTP status code of a reply. -/
def HttpReply.status : HttpReply → Int
  | .envelope rec => rec.Code
  | .notFound => 404
  | .methodNotAllowed => 405
  | .movedPermanently _ => 301

/-- Run the handler a route names. -/
def runHandler {τ : Type} (svc : documentServiceInterface τ) (h : HandlerName) (r : Request)
    (w : ServiceWorld τ) : ResponseRecorder × ServiceWorld τ :=
  match h with
  | .CreateHandler => CreateHandler svc r w
  | .UpdateHandler => UpdateHandler svc r w
  | .DeleteHandler => DeleteHandler svc r w
  | .GetByIdHandler => GetByIdHandler svc r w
  | .GetAllHandler => GetAllHandler svc r w

/-- Method `Router.ServeHTTP` on the route table of `main`: a path that is
not in canonical form is redirected; otherwise the matching handler runs with
the route variables, and a request no route matches is answered by the
router itself. (`commonMiddleware` only adds a response header, which the
envelope does not record.) -/
def ServeHTTP {τ : Type} (svc : documentServiceInterface τ) (req : HttpRequest)
    (w : ServiceWorld τ) : HttpReply × ServiceWorld τ :=
  if cleanPath req.Path ≠ req.Path then (HttpReply.movedPermanently (cleanPath req.Path), w)
  else
    match matchRoutes mainRoutes req.Method req.Path false with
    | .handle h vars =>
      (HttpReply.envelope (runHandler svc h ⟨req.Body, vars⟩ w).1,
        (runHandler svc h ⟨req.Body, vars⟩ w).2)
    | .methodNotAllowed => (HttpReply.methodNotAllowed, w)
    | .notFound => (HttpReply.notFound, w)

/-- The request path `/documents/` followed by an identifier. -/
def documentPath (id : GoString) : GoString := str "/documents/" ++ id

/-! ## Standard library: `database/sql` -/

/-- The result of an executed statement (`sql.Result`). -/
structure SqlResult where
  LastInsertId : Int × Option GoError
  RowsAffected : Int × Option GoError
deriving DecidableEq, Repr

/-- The `*sql.DB` handle as the repository uses it, over a connection state
`σ`. A prepared statement is identified with its query text; closing it
(whose error the code discards) is not modelled. `Query` yields the rows of
the result set, each a list of column values. -/
structure SqlDB (σ : Type) where
  Prepare : String → σ → Option GoError × σ
  Exec : String → List DriverValue → σ → Except GoError SqlResult × σ
  Query : String → List DriverValue → σ → Except GoError (List (List DriverValue)) × σ

/-- The error `Rows.Scan` returns for a column that does not convert; it
unwraps to the conversion's error. -/
def sqlScanError (column : Nat) (inner : GoError) : GoError :=
  GoError.wrap ("sql: Scan error on column index " ++ toString column) inner

/-- The error of a `NULL` read into a destination that cannot hold it. -/
def sqlNullError : GoError := GoError.other 131 "converting NULL is unsupported"

/-- The error of a value that does not convert to the destination's type. -/
def sqlConvertError : GoError := GoError.other 132 "converting driver.Value type"

/-- The error of a `Scan` whose destinations do not match the columns in
number. -/
def sqlDestCountError : GoError :=
  GoError.other 133 "sql: expected destination arguments in Scan"

/-- Function `strconv.FormatInt(v, 10)`. -/
def FormatInt (v : Int) : GoString := str (toString v)

/-- Conversion of a column value into an `*int64` destination
(`sql.convertAssign`). -/
def scanInt64 : DriverValue → Except GoError Int
  | .int v => .ok v
  | .bytes b =>
    match ParseInt b with
    | (n, none) => .ok n
    | (_, some _) => .error sqlConvertError
  | .string s =>
    match ParseInt s with
    | (n, none) => .ok n
    | (_, some _) => .error sqlConvertError
  | .null => .error sqlNullError

/-- Conversion of a column value into a `*string` destination
(`sql.convertAssign`). -/
def scanString : DriverValue → Except GoError GoString
  | .string s => .ok s
  | .bytes b => .ok b
  | .int v => .ok (FormatInt v)
  | .null => .error sqlNullError

/-- Call `Scan(&doc.ID, &doc.Title, &doc.Content, &doc.Signee)` on one row:
the columns are converted in order and the first failure ends the scan. The
result is `none` when `Content.Scan` panics. -/
def scanDocument (row : List DriverValue) (doc : Document) :
    Option (Document × Option GoError) :=
  match row with
  | [c0, c1, c2, c3] =>
    match scanInt64 c0 with
    | .error e => some (doc, some (sqlScanError 0 e))
    | .ok id =>
      match scanString c1 with
      | .error e => some ({ doc with ID := id }, some (sqlScanError 1 e))
      | .ok title =>
        match Content.Scan doc.Content c2 with
        | none => none
        | some (content, some e) =>
          some ({ doc with ID := id, Title := title, Content := content },
            some (sqlScanError 2 e))
        | some (content, none) =>
          match scanString c3 with
          | .error e =>
            some ({ doc with ID := id, Title := title, Content := content },
              some (sqlScanError 3 e))
          | .ok signee => some (⟨id, title, content, signee⟩, none)
  | _ => some (doc, some sqlDestCountError)

/-! ## package model: the repository -/

/-- The query of `documentRepository.Get`. -/
def selectByIdQuery : String := "SELECT * FROM documents WHERE id = ?"

/-- The query of `documentRepository.Create`. -/
def insertQuery : String := "INSERT INTO documents(title, content, signee) VALUES(?, ?, ?);"

/-- The query of `documentRepository.Update`. -/
def updateQuery : String :=
  "UPDATE documents SET title = ?, content = ?, signee = ? WHERE id = ?"

/-- The query of `documentRepository.GetAll`. -/
def selectAllQuery : String := "SELECT * FROM documents"

/-- The query of `documentRepository.Delete`. -/
def deleteQuery : String := "DELETE FROM documents WHERE id = ?"

/-- Method `documentRepository.Get`; `none` when scanning the row panics. -/
def documentRepository.Get {σ : Type} (db : SqlDB σ) (id : Int) (st : σ) :
    Option (DocResult × σ) :=
  match db.Prepare selectByIdQuery st with
  | (some err, st) => some ((none, some err), st)
  | (none, st) =>
    match db.Query selectByIdQuery [DriverValue.int id] st with
    | (.error err, st) => some ((none, some err), st)
    | (.ok [], st) => some ((none, some GoError.ErrNoRows), st)
    | (.ok (row :: _), st) =>
      match scanDocument row zeroDocument with
      | none => none
      | some (_, some err) => some ((none, some err), st)
      | some (doc, none) => some ((some doc, none), st)

/-- Method `documentRepository.Create`. -/
def documentRepository.Create {σ : Type} (db : SqlDB σ) (newDoc : Document) (st : σ) :
    DocResult × σ :=
  match db.Prepare insertQuery st with
  | (some err, st) => ((none, some err), st)
  | (none, st) =>
    let contentJson := MarshalContent newDoc.Content
    match db.Exec insertQuery
        [DriverValue.string newDoc.Title, DriverValue.bytes contentJson,
          DriverValue.string newDoc.Signee] st with
    | (.error err, st) => ((none, some err), st)
    | (.ok insertResult, st) =>
      match insertResult.LastInsertId with
      | (_, some err) => ((none, some err), st)
      | (id, none) => ((some { newDoc with ID := id }, none), st)

/-- Method `documentRepository.Update`. -/
def documentRepository.Update {σ : Type} (db : SqlDB σ) (upDoc : Document) (st : σ) :
    DocResult × σ :=
  match db.Prepare updateQuery st with
  | (some err, st) => ((none, some err), st)
  | (none, st) =>
    let contentJson := MarshalContent upDoc.Content
    match db.Exec updateQuery
        [DriverValue.string upDoc.Title, DriverValue.bytes contentJson,
          DriverValue.string upDoc.Signee, DriverValue.int upDoc.ID] st with
    | (.error err, st) => ((none, some err), st)
    | (.ok result, st) =>
      match result.RowsAffected with
      | (_, some err) => ((none, some err), st)
      | (_, none) => ((some upDoc, none), st)

/-- The loop of `documentRepository.GetAll` over the rows of the result set;
`none` when scanning a row panics. -/
def scanAll : List (List DriverValue) → List Document → Option DocsResult
  | [], results => some (some results, none)
  | row :: rows, results =>
    match scanDocument row zeroDocument with
    | none => none
    | some (_, some getError) => some (none, some getError)
    | some (doc, none) => scanAll rows (results ++ [doc])

/-- Method `documentRepository.GetAll`; `none` when scanning a row panics. -/
def documentRepository.GetAll {σ : Type} (db : SqlDB σ) (st : σ) :
    Option (DocsResult × σ) :=
  match db.Prepare selectAllQuery st with
  | (some err, st) => some ((none, some err), st)
  | (none, st) =>
    match db.Query selectAllQuery [] st with
    | (.error err, st) => some ((none, some err), st)
    | (.ok rows, st) => (scanAll rows []).map (fun r => (r, st))

/-- Method `documentRepository.Delete`. -/
def documentRepository.Delete {σ : Type} (db : SqlDB σ) (id : Int) (st : σ) :
    Option GoError × σ :=
  match db.Prepare deleteQuery st with
  | (some err, st) => (some err, st)
  | (none, st) =>
    match db.Exec deleteQuery [DriverValue.int id] st with
    | (.error err, st) => (some err, st)
    | (.ok _, st) => (none, st)

/-! ## The relational store -/

/-- One row of the table `documents`. -/
structure Row where
  id : Int
  title : GoString
  content : GoString
  signee : GoString
deriving DecidableEq, Repr

/-- The table `documents` and its auto-increment counter. -/
structure Store where
  rows : List Row
  nextId : Int
deriving DecidableEq, Repr

/-- A store is well formed when its counter is positive and above every
identifier in use; the empty table with counter 1 is, and every statement
keeps it so. -/
def Store.WellFormed (st : Store) : Prop :=
  0 < st.nextId ∧ ∀ r ∈ st.rows, r.id < st.nextId

/-- The text a statement argument stores into a text column. -/
def textArg : DriverValue → Option GoString
  | .string s => some s
  | .bytes b => some b
  | _ => none

/-- The column values of a row, as the driver hands them over for
`SELECT *`: the identifier as an integer, the text columns as bytes. -/
def Row.values (r : Row) : List DriverValue :=
  [DriverValue.int r.id, DriverValue.bytes r.title, DriverValue.bytes r.content,
    DriverValue.bytes r.signee]

/-- The error of a statement the store does not accept. -/
def storeStatementError : GoError := GoError.other 141 "Error 1064: SQL syntax"

/-- Modelled from the spec: the relational store behind the repository (the
schema migrations and the database server are not part of the source tree).
The spec's persisted schema is one table with an auto-assigned integer
identifier, a text title, a text content holding the serialized sub-object
and a text signee. The five statements of the repository are interpreted on
that table: an insert appends a row under the next identifier of the
counter, a select by identifier returns the rows with that identifier, an
update rewrites them, a delete removes them, and a plain select returns every
row in table order. -/
def tableDB : SqlDB Store where
  Prepare := fun query st =>
    if query = selectByIdQuery ∨ query = insertQuery ∨ query = updateQuery
        ∨ query = selectAllQuery ∨ query = deleteQuery then (none, st)
    else (some storeStatementError, st)
  Exec := fun query args st =>
    if query = insertQuery then
      match args with
      | [t, c, s] =>
        match textArg t, textArg c, textArg s with
        | some title, some content, some signee =>
          (.ok ⟨(st.nextId, none), (1, none)⟩,
            ⟨st.rows ++ [⟨st.nextId, title, content, signee⟩], st.nextId + 1⟩)
        | _, _, _ => (.error storeStatementError, st)
      | _ => (.error storeStatementError, st)
    else if query = updateQuery then
      match args with
      | [t, c, s, DriverValue.int id] =>
        match textArg t, textArg c, textArg s with
        | some title, some content, some signee =>
          (.ok ⟨(0, none), (((st.rows.filter (fun r => r.id = id)).length : Int), none)⟩,
            ⟨st.rows.map (fun r => if r.id = id then ⟨id, title, content, signee⟩ else r),
              st.nextId⟩)
        | _, _, _ => (.error storeStatementError, st)
      | _ => (.error storeStatementError, st)
    else if query = deleteQuery then
      match args with
      | [DriverValue.int id] =>
        (.ok ⟨(0, none), (((st.rows.filter (fun r => r.id = id)).length : Int), none)⟩,
          ⟨st.rows.filter (fun r => ¬ r.id = id), st.nextId⟩)
      | _ => (.error storeStatementError, st)
    else (.error storeStatementError, st)
  Query := fun query args st =>
    if query = selectByIdQuery then
      match args with
      | [DriverValue.int id] =>
        (.ok ((st.rows.filter (fun r => r.id = id)).map Row.values), st)
      | _ => (.error storeStatementError, st)
    else if query = selectAllQuery then (.ok (st.rows.map Row.values), st)
    else (.error storeStatementError, st)

/-- The value of a string of decimal digits. -/
def decimalValue (s : GoString) : Nat :=
  s.foldl (fun n c => n * 10 + (c.val - 0x30)) 0

/-- The byte is a decimal digit. -/
def isDigit (c : Byte) : Prop := 0x30 ≤ c.val ∧ c.val ≤ 0x39

/-! ## Properties stated by the claims -/

/-- The error that makes `CreateHandler` fail on a request, if any: the
decoder's, else the service's. -/
def createFailure {τ : Type} (svc : documentServiceInterface τ) (r : Request)
    (w : ServiceWorld τ) : Option GoError :=
  match DecodeDocument r.Body zeroDocument with
  | (_, some err) => some err
  | (d, none) => (svc.Create d w.state).1.2

/-- The error that makes `UpdateHandler` fail on a request, if any: the
decoder's, else the identifier parser's, else the service's. -/
def updateFailure {τ : Type} (svc : documentServiceInterface τ) (r : Request)
    (w : ServiceWorld τ) : Option GoError :=
  match DecodeDocument r.Body zeroDocument with
  | (_, some err) => some err
  | (d, none) =>
    match ParseInt (muxVar r "id") with
    | (_, some err) => some err
    | (id, none) => (svc.Update { d with ID := id } w.state).1.2

/-- The error that makes `DeleteHandler` fail on a request, if any: the
identifier parser's, else the service's. -/
def deleteFailure {τ : Type} (svc : documentServiceInterface τ) (r : Request)
    (w : ServiceWorld τ) : Option GoError :=
  match ParseInt (muxVar r "id") with
  | (_, some err) => some err
  | (id, none) => (svc.Delete id w.state).1

/-- The error that makes `GetByIdHandler` fail on a request, if any: the
identifier parser's, else the service's. -/
def getByIdFailure {τ : Type} (svc : documentServiceInterface τ) (r : Request)
    (w : ServiceWorld τ) : Option GoError :=
  match ParseInt (muxVar r "id") with
  | (_, some err) => some err
  | (id, none) => (svc.Get id w.state).1.2

/-- The error that makes `GetAllHandler` fail, if any: the service's. -/
def getAllFailure {τ : Type} (svc : documentServiceInterface τ)
    (w : ServiceWorld τ) : Option GoError :=
  (svc.GetAll w.state).1.2

/-- The envelope invariant: the envelope's code is the status written; the
status flag is false exactly for 400, 404, 422 and 500 and true exactly for
200 and 201; a failure carries no payload and the message of the error that
caused it; a success has no causing error and an empty error field. -/
def EnvelopeOK (rec : ResponseRecorder) (failure : Option GoError) : Prop :=
  rec.Body.Code = rec.Code ∧
  (rec.Body.Status = false ↔
    rec.Code = 400 ∨ rec.Code = 404 ∨ rec.Code = 422 ∨ rec.Code = 500) ∧
  (rec.Body.Status = true ↔ rec.Code = 200 ∨ rec.Code = 201) ∧
  (rec.Body.Status = false →
    rec.Body.Data = Payload.nil ∧ ∃ e, failure = some e ∧ rec.Body.Error = e.Error) ∧
  (rec.Body.Status = true → failure = none ∧ rec.Body.Error = "")

/-- The document repository `GetAll` builds from one row of the table. -/
def Row.document (r : Row) : Document :=
  ⟨r.id, r.title, (UnmarshalContent r.content ⟨[], []⟩).1, r.signee⟩

/-- The arguments repository `Update` binds to its statement. -/
def updateArgs (d : Document) : List DriverValue :=
  [DriverValue.string d.Title, DriverValue.bytes (MarshalContent d.Content),
    DriverValue.string d.Signee, DriverValue.int d.ID]

/-- A string made of complete encodings of white-space runes and nothing
else. -/
inductive AllSpace : GoString → Prop where
  | nil : AllSpace []
  | cons (u rest : GoString) (hu : u ≠ [])
      (hsp : IsSpace (DecodeRuneInString u).1 = true)
      (hsz : (DecodeRuneInString u).2 = u.length) (hrest : AllSpace rest) :
      AllSpace (u ++ rest)

/-- Function `json.Valid`, the syntactic validity the claims speak of: the
data is exactly one JSON value, with nothing but white space around it. -/
def jsonValid (data : GoString) : Bool :=
  match parseJSON data with
  | none => false
  | some (_, rest) => skipSpace rest == []

/-! ## Theorems -/

/-! ### `strings.TrimSpace` -/

theorem isSpace_runeError : IsSpace RuneError = false := by decide

theorem decodeRune_size_pos (s : GoString) (h : s ≠ []) : 1 ≤ (DecodeRuneInString s).2 := by
  unfold DecodeRuneInString
  split
  · exact absurd rfl h
  · split_ifs <;> (repeat' split) <;> simp

theorem decodeRune_size_le (s : GoString) : (DecodeRuneInString s).2 ≤ s.length := by
  unfold DecodeRuneInString
  split
  · simp
  · split_ifs <;> (repeat' split) <;> simp

theorem lastRuneScan_le (s : GoString) (lim : Int) (k : Nat) (start : Int) :
    lastRuneScan s lim k start ≤ start := by
  induction k generalizing start with
  | zero => simp [lastRuneScan]
  | succ k ih =>
    unfold lastRuneScan
    split_ifs
    · exact le_rfl
    · exact le_rfl
    · exact le_trans (ih _) (by omega)

theorem decodeLastRune_size_pos (s : GoString) (h : s ≠ []) :
    1 ≤ (DecodeLastRuneInString s).2 := by
  have hlen : 0 < s.length := List.length_pos.mpr h
  unfold DecodeLastRuneInString
  simp only
  rw [if_neg (by omega)]
  by_cases h1 : (s.getD (s.length - 1) 0).val < RuneSelf
  · rw [if_pos h1]
  · rw [if_neg h1]
    generalize (if (s.length : Int) - 4 < 0 then 0 else (s.length : Int) - 4) = lim
    have hscan := lastRuneScan_le s lim 5 ((s.length : Int) - 2)
    generalize lastRuneScan s lim 5 ((s.length : Int) - 2) = sc at hscan ⊢
    have hst : (if sc < 0 then 0 else sc) < (s.length : Int) := by split_ifs <;> omega
    generalize (if sc < 0 then 0 else sc) = st at hst ⊢
    split_ifs with h3
    · simp
    · simp only [ne_eq, not_not] at h3
      simp only
      omega

theorem decodeLastRune_size_le (s : GoString) :
    (DecodeLastRuneInString s).2 ≤ s.length := by
  by_cases h : s = []
  · subst h; simp [DecodeLastRuneInString]
  have hlen : 0 < s.length := List.length_pos.mpr h
  unfold DecodeLastRuneInString
  simp only
  rw [if_neg (by omega)]
  by_cases h1 : (s.getD (s.length - 1) 0).val < RuneSelf
  · rw [if_pos h1]; exact hlen
  · rw [if_neg h1]
    generalize (if (s.length : Int) - 4 < 0 then 0 else (s.length : Int) - 4) = lim
    generalize lastRuneScan s lim 5 ((s.length : Int) - 2) = sc
    have hst : 0 ≤ (if sc < 0 then 0 else sc) := by split_ifs <;> omega
    generalize (if sc < 0 then 0 else sc) = st at hst ⊢
    split_ifs with h3
    · exact hlen
    · simp only [ne_eq, not_not] at h3
      simp only
      omega

theorem trimLeftLoop_fixed (k : Nat) (s : GoString)
    (h : s = [] ∨ IsSpace (DecodeRuneInString s).1 = false) : trimLeftLoop k s = s := by
  cases k with
  | zero => rfl
  | succ k =>
    unfold trimLeftLoop
    cases s with
    | nil => rfl
    | cons a t =>
      rcases h with h | h
      · simp at h
      · simp [h]

theorem trimRightLoop_fixed (k : Nat) (s : GoString)
    (h : s = [] ∨ IsSpace (DecodeLastRuneInString s).1 = false) : trimRightLoop k s = s := by
  cases k with
  | zero => rfl
  | succ k =>
    unfold trimRightLoop
    cases s with
    | nil => rfl
    | cons a t =>
      rcases h with h | h
      · simp at h
      · simp [h]

theorem trimLeftLoop_spec (k : Nat) (s : GoString) (hk : s.length ≤ k) :
    (trimLeftLoop k s = [] ∨ IsSpace (DecodeRuneInString (trimLeftLoop k s)).1 = false) ∧
    (trimLeftLoop k s).length ≤ s.length := by
  induction k generalizing s with
  | zero =>
    have : s = [] := List.length_eq_zero.mp (by omega)
    subst this
    simp [trimLeftLoop]
  | succ k ih =>
    unfold trimLeftLoop
    cases s with
    | nil => simp
    | cons a t =>
      simp only
      by_cases hsp : IsSpace (DecodeRuneInString (a :: t)).1 = true
      · rw [if_pos hsp]
        have hpos := decodeRune_size_pos (a :: t) (by simp)
        have hlen : ((a :: t).drop (DecodeRuneInString (a :: t)).2).length ≤ k := by
          rw [List.length_drop]; simp only [List.length_cons] at hk ⊢; omega
        have := ih _ hlen
        refine ⟨this.1, le_trans this.2 ?_⟩
        rw [List.length_drop]; omega
      · rw [if_neg hsp]
        simp only [Bool.not_eq_true] at hsp
        exact ⟨Or.inr hsp, le_rfl⟩

theorem trimRightLoop_spec (k : Nat) (s : GoString) (hk : s.length ≤ k) :
    (trimRightLoop k s = [] ∨
      IsSpace (DecodeLastRuneInString (trimRightLoop k s)).1 = false) ∧
    trimRightLoop k s <+: s := by
  induction k generalizing s with
  | zero =>
    have : s = [] := List.length_eq_zero.mp (by omega)
    subst this
    simp [trimRightLoop]
  | succ k ih =>
    unfold trimRightLoop
    cases s with
    | nil => simp
    | cons a t =>
      simp only
      by_cases hsp : IsSpace (DecodeLastRuneInString (a :: t)).1 = true
      · rw [if_pos hsp]
        have hpos := decodeLastRune_size_pos (a :: t) (by simp)
        have hlen : ((a :: t).take ((a :: t).length - (DecodeLastRuneInString (a :: t)).2)).length
            ≤ k := by
          rw [List.length_take]; simp only [List.length_cons] at hk ⊢; omega
        have := ih _ hlen
        exact ⟨this.1, this.2.trans (List.take_prefix _ _)⟩
      · rw [if_neg hsp]
        simp only [Bool.not_eq_true] at hsp
        exact ⟨Or.inr hsp, List.prefix_refl _⟩

theorem leadInfo_size (x sz lo hi : Nat) (h : leadInfo x = some (sz, lo, hi)) :
    sz = 2 ∨ sz = 3 ∨ sz = 4 := by
  unfold leadInfo at h
  split_ifs at h <;> simp at h <;> omega

theorem decodeRune_prefix (u v : GoString) (hu : u ≠ []) :
    DecodeRuneInString u = DecodeRuneInString (u ++ v) ∨
      DecodeRuneInString u = (RuneError, 1) := by
  rcases u with _ | ⟨a, u1⟩
  · exact absurd rfl hu
  by_cases ha : a.val < RuneSelf
  · left; simp [DecodeRuneInString, ha]
  rcases hl : leadInfo a.val with _ | ⟨sz, lo, hi⟩
  · left; simp [DecodeRuneInString, ha, hl]
  rcases leadInfo_size _ _ _ _ hl with rfl | rfl | rfl
  · rcases u1 with _ | ⟨b, u2⟩
    · right; simp [DecodeRuneInString, ha, hl]
    · left; simp [DecodeRuneInString, ha, hl]
      split_ifs <;> first | rfl | (exfalso; omega)
  · rcases u1 with _ | ⟨b, _ | ⟨c, u3⟩⟩
    · right; simp [DecodeRuneInString, ha, hl]
    · right; simp [DecodeRuneInString, ha, hl]
    · left; simp [DecodeRuneInString, ha, hl]
      split_ifs <;> first | rfl | (exfalso; omega)
  · rcases u1 with _ | ⟨b, _ | ⟨c, _ | ⟨d, u4⟩⟩⟩
    · right; simp [DecodeRuneInString, ha, hl]
    · right; simp [DecodeRuneInString, ha, hl]
    · right; simp [DecodeRuneInString, ha, hl]
    · left; simp [DecodeRuneInString, ha, hl]
      split_ifs <;> first | rfl | (exfalso; omega)

theorem trimSpace_idempotent (s : GoString) : TrimSpace (TrimSpace s) = TrimSpace s := by
  unfold TrimSpace
  have hL := trimLeftLoop_spec s.length s le_rfl
  generalize trimLeftLoop s.length s = t at hL
  have hR := trimRightLoop_spec s.length t hL.2
  generalize trimRightLoop s.length t = u at hR
  have hfirst : u = [] ∨ IsSpace (DecodeRuneInString u).1 = false := by
    by_cases hu : u = []
    · exact Or.inl hu
    right
    obtain ⟨v, hv⟩ := hR.2
    rcases decodeRune_prefix u v hu with h | h
    · rw [h, hv]
      rcases hL.1 with ht | ht
      · subst ht; simp at hv; exact absurd hv.1 hu
      · exact ht
    · rw [h]; exact isSpace_runeError
  rw [trimLeftLoop_fixed _ _ hfirst, trimRightLoop_fixed _ _ hR.1]

/-- The result of `TrimSpace` neither starts nor ends with white space. -/
theorem trimSpace_no_outer_space (s : GoString) (h : TrimSpace s ≠ []) :
    IsSpace (DecodeRuneInString (TrimSpace s)).1 = false ∧
    IsSpace (DecodeLastRuneInString (TrimSpace s)).1 = false := by
  have hL := trimLeftLoop_spec s.length s le_rfl
  have hR := trimRightLoop_spec s.length (trimLeftLoop s.length s) hL.2
  have hu : trimRightLoop s.length (trimLeftLoop s.length s) = TrimSpace s := rfl
  rw [hu] at hR
  refine ⟨?_, hR.1.resolve_left h⟩
  obtain ⟨v, hv⟩ := hR.2
  rcases decodeRune_prefix (TrimSpace s) v h with h1 | h1
  · rw [h1, hv]
    rcases hL.1 with ht | ht
    · rw [ht] at hv; simp at hv; exact absurd hv.1 h
    · exact ht
  · rw [h1]; exact isSpace_runeError

/-! ### The validator and the service -/

/-- The error `Validate` returns is decided by the trimmed title and signee. -/
theorem validate_snd (d : Document) :
    d.Validate.2 =
      if TrimSpace d.Title = [] then some GoError.TitleInvalidValue
      else if TrimSpace d.Signee = [] then some GoError.SigneeInvalidValue
      else none := by
  unfold Document.Validate
  by_cases ht : TrimSpace d.Title = [] <;> by_cases hs : TrimSpace d.Signee = [] <;>
    simp [ht, hs]

/-- The document `Validate` leaves behind has both fields trimmed and the
other fields untouched. -/
theorem validate_fst (d : Document) :
    d.Validate.1 =
      { d with Title := TrimSpace d.Title, Signee := TrimSpace d.Signee } := by
  unfold Document.Validate
  by_cases ht : TrimSpace d.Title = [] <;> by_cases hs : TrimSpace d.Signee = [] <;>
    simp [ht, hs]

/-- C1: `Validate` reports title-invalid exactly when the trimmed title is
empty (whatever the signee), signee-invalid exactly when the trimmed title is
non-empty and the trimmed signee is empty, and no error exactly when both
trimmed fields are non-empty. -/
theorem validate_error_cases (d : Document) :
    (d.Validate.2 = some GoError.TitleInvalidValue ↔ TrimSpace d.Title = []) ∧
    (d.Validate.2 = some GoError.SigneeInvalidValue ↔
      TrimSpace d.Title ≠ [] ∧ TrimSpace d.Signee = []) ∧
    (d.Validate.2 = none ↔ TrimSpace d.Title ≠ [] ∧ TrimSpace d.Signee ≠ []) := by
  unfold Document.Validate
  by_cases ht : TrimSpace d.Title = [] <;> by_cases hs : TrimSpace d.Signee = [] <;>
    simp [ht, hs]

/-- C2: a document whose trimmed title is empty, or whose trimmed title is
non-empty and whose trimmed signee is empty, makes both `Create` and `Update`
return no document and the validator's error (title-invalid, respectively
signee-invalid) and leaves the repository world as it was: no repository call
is logged and the repository state is untouched, whatever the repository and
whether or not the identifier exists. -/
theorem service_rejects_invalid {σ : Type} (repo : documentRepositoryInterface σ)
    (d : Document) (w : RepoWorld σ)
    (h : TrimSpace d.Title = [] ∨ (TrimSpace d.Title ≠ [] ∧ TrimSpace d.Signee = [])) :
    documentService.Create repo d w =
        ((none, some (if TrimSpace d.Title = [] then GoError.TitleInvalidValue
                      else GoError.SigneeInvalidValue)), w) ∧
    documentService.Update repo d w =
        ((none, some (if TrimSpace d.Title = [] then GoError.TitleInvalidValue
                      else GoError.SigneeInvalidValue)), w) ∧
    d.Validate.2 = some (if TrimSpace d.Title = [] then GoError.TitleInvalidValue
                      else GoError.SigneeInvalidValue) := by
  have hv := validate_snd d
  unfold documentService.Create documentService.Update
  rcases h with ht | ⟨ht, hs⟩
  · simp only [ht, if_true] at hv ⊢
    rcases hd : d.Validate with ⟨d1, e⟩
    rw [hd] at hv
    simp only at hv
    subst hv
    simp
  · simp only [ht, hs, if_true, if_false] at hv ⊢
    rcases hd : d.Validate with ⟨d1, e⟩
    rw [hd] at hv
    simp only at hv
    subst hv
    simp

/-- Witness for C2: a blank title with an existing identifier, against a
repository whose every call would succeed. -/
theorem service_rejects_invalid_witness :
    documentService.Create
        (dBMock (some ⟨7, str "t", ⟨[], []⟩, str "s"⟩, none) (some ⟨7, str "t", ⟨[], []⟩, str "s"⟩, none)
          (some ⟨7, str "t", ⟨[], []⟩, str "s"⟩, none) none (some [], none))
        ⟨7, str " \t ", ⟨[], []⟩, str "signee"⟩ ⟨(), []⟩ =
      ((none, some GoError.TitleInvalidValue), ⟨(), []⟩) ∧
    documentService.Update
        (dBMock (some ⟨7, str "t", ⟨[], []⟩, str "s"⟩, none) (some ⟨7, str "t", ⟨[], []⟩, str "s"⟩, none)
          (some ⟨7, str "t", ⟨[], []⟩, str "s"⟩, none) none (some [], none))
        ⟨7, str " \t ", ⟨[], []⟩, str "signee"⟩ ⟨(), []⟩ =
      ((none, some GoError.TitleInvalidValue), ⟨(), []⟩) := by
  have h := service_rejects_invalid
    (dBMock (some ⟨7, str "t", ⟨[], []⟩, str "s"⟩, none) (some ⟨7, str "t", ⟨[], []⟩, str "s"⟩, none)
      (some ⟨7, str "t", ⟨[], []⟩, str "s"⟩, none) none (some [], none))
    ⟨7, str " \t ", ⟨[], []⟩, str "signee"⟩ ⟨(), []⟩ (Or.inl (by decide))
  have ht : TrimSpace (str " \t ") = [] := by decide
  simp only [ht, if_true] at h
  exact ⟨h.1, h.2.1⟩

/-- C3: for a document that passes validation, when the existence check
`Get` on its identifier fails with `e`, `Update` returns no document and
exactly `e`, and the only repository call logged is that `Get` (repository
`Update` is not invoked, the state is the one `Get` left); when the `Get`
succeeds, repository `Update` is invoked once, after the `Get`, on the
validated document, and its result is returned. -/
theorem service_update_existence_check {σ : Type} (repo : documentRepositoryInterface σ)
    (d : Document) (w : RepoWorld σ) (hv : d.Validate.2 = none) :
    (∀ e, (repo.Get d.ID w.state).1.2 = some e →
      documentService.Update repo d w =
        ((none, some e), ⟨(repo.Get d.ID w.state).2, w.calls ++ [RepoCall.Get d.ID]⟩)) ∧
    ((repo.Get d.ID w.state).1.2 = none →
      documentService.Update repo d w =
        ((repo.Update d.Validate.1 (repo.Get d.ID w.state).2).1,
          ⟨(repo.Update d.Validate.1 (repo.Get d.ID w.state).2).2,
            w.calls ++ [RepoCall.Get d.ID, RepoCall.Update d.Validate.1]⟩)) := by
  have hid : d.Validate.1.ID = d.ID := by rw [validate_fst]
  unfold documentService.Update
  rcases hd : d.Validate with ⟨d1, e1⟩
  rw [hd] at hv hid
  simp only at hv hid
  subst hv
  simp only [callGet, callUpdate, hid]
  rcases hg : repo.Get d.ID w.state with ⟨⟨gd, ge⟩, st⟩
  constructor
  · intro e he
    simp only at he
    subst he
    rfl
  · intro he
    simp only at he
    subst he
    simp

/-- Witness for C3: updating identifier 9 while the repository reports that
no row has it. -/
theorem service_update_existence_check_witness :
    documentService.Update
        (dBMock (none, some GoError.ErrNoRows) (none, none)
          (some ⟨9, str "new", ⟨[], []⟩, str "new2"⟩, none) none (none, none))
        ⟨9, str "new", ⟨[], []⟩, str "new2"⟩ ⟨(), []⟩ =
      ((none, some GoError.ErrNoRows), ⟨(), [RepoCall.Get 9]⟩) :=
  (service_update_existence_check
    (dBMock (none, some GoError.ErrNoRows) (none, none)
      (some ⟨9, str "new", ⟨[], []⟩, str "new2"⟩, none) none (none, none))
    ⟨9, str "new", ⟨[], []⟩, str "new2"⟩ ⟨(), []⟩ (by decide)).1 GoError.ErrNoRows rfl

/-- C4: when `Get(id)` fails with `e`, `Delete(id)` returns exactly `e` and
the only repository call logged is that `Get` (repository `Delete` is not
invoked); when `Get(id)` succeeds, `Delete(id)` returns exactly what
repository `Delete(id)` returns on the state `Get` left. -/
theorem service_delete_existence_check {σ : Type} (repo : documentRepositoryInterface σ)
    (id : Int) (w : RepoWorld σ) :
    (∀ e, (repo.Get id w.state).1.2 = some e →
      documentService.Delete repo id w =
        (some e, ⟨(repo.Get id w.state).2, w.calls ++ [RepoCall.Get id]⟩)) ∧
    ((repo.Get id w.state).1.2 = none →
      documentService.Delete repo id w =
        ((repo.Delete id (repo.Get id w.state).2).1,
          ⟨(repo.Delete id (repo.Get id w.state).2).2,
            w.calls ++ [RepoCall.Get id, RepoCall.Delete id]⟩)) := by
  unfold documentService.Delete
  simp only [callGet, callDelete]
  rcases hg : repo.Get id w.state with ⟨⟨gd, ge⟩, st⟩
  constructor
  · intro e he
    simp only at he
    subst he
    rfl
  · intro he
    simp only at he
    subst he
    simp

/-- Witness for C4: deleting identifier 5 while the repository reports that
no row has it. -/
theorem service_delete_existence_check_witness :
    documentService.Delete
        (dBMock (none, some GoError.ErrNoRows) (none, none) (none, none) none (none, none))
        5 ⟨(), []⟩ =
      (some GoError.ErrNoRows, ⟨(), [RepoCall.Get 5]⟩) :=
  (service_delete_existence_check
    (dBMock (none, some GoError.ErrNoRows) (none, none) (none, none) none (none, none))
    5 ⟨(), []⟩).1 GoError.ErrNoRows rfl

/-- A document that passes validation is left with trimmed, non-empty title
and signee. -/
theorem validate_ok_trimmed (d : Document) (h : d.Validate.2 = none) :
    Trimmed d.Validate.1.Title ∧ Trimmed d.Validate.1.Signee := by
  rw [validate_snd] at h
  rw [validate_fst]
  by_cases ht : TrimSpace d.Title = []
  · simp [ht] at h
  by_cases hs : TrimSpace d.Signee = []
  · simp [ht, hs] at h
  exact ⟨⟨ht, trimSpace_idempotent _, trimSpace_no_outer_space _ ht⟩,
    ⟨hs, trimSpace_idempotent _, trimSpace_no_outer_space _ hs⟩⟩

theorem persistedDocs_append (a b : List RepoCall) :
    persistedDocs (a ++ b) = persistedDocs a ++ persistedDocs b := by
  simp [persistedDocs, List.filterMap_append]

/-- Every service operation adds to the log only writes of validated
documents. -/
theorem runOp_persisted {σ : Type} (repo : documentRepositoryInterface σ)
    (op : ServiceOp) (w : RepoWorld σ) (d : Document)
    (hd : d ∈ persistedDocs (runOp repo op w).calls) :
    d ∈ persistedDocs w.calls ∨ (Trimmed d.Title ∧ Trimmed d.Signee) := by
  cases op with
  | Get id =>
    simp only [runOp, documentService.Get, callGet, persistedDocs_append,
      List.mem_append] at hd
    rcases hd with hd | hd
    · exact Or.inl hd
    · simp [persistedDocs, RepoCall.written] at hd
  | GetAll =>
    simp only [runOp, documentService.GetAll, callGetAll, persistedDocs_append,
      List.mem_append] at hd
    rcases hd with hd | hd
    · exact Or.inl hd
    · simp [persistedDocs, RepoCall.written] at hd
  | Delete id =>
    simp only [runOp, documentService.Delete, callGet, callDelete] at hd
    rcases hg : repo.Get id w.state with ⟨⟨gd, ge⟩, st⟩
    rw [hg] at hd
    cases ge <;>
    · simp only [persistedDocs_append, List.mem_append, or_assoc] at hd
      rcases hd with hd | hd
      · exact Or.inl hd
      · simp [persistedDocs, RepoCall.written] at hd
  | Create x =>
    simp only [runOp, documentService.Create, callCreate] at hd
    have hv := validate_ok_trimmed x
    rcases hx : x.Validate with ⟨x1, e⟩
    rw [hx] at hd hv
    cases e with
    | some e => exact Or.inl hd
    | none =>
      simp only [persistedDocs_append, List.mem_append, or_assoc] at hd
      rcases hd with hd | hd
      · exact Or.inl hd
      · simp [persistedDocs, RepoCall.written] at hd
        subst hd; exact Or.inr (hv rfl)
  | Update x =>
    simp only [runOp, documentService.Update, callGet, callUpdate] at hd
    have hv := validate_ok_trimmed x
    rcases hx : x.Validate with ⟨x1, e⟩
    rw [hx] at hd hv
    cases e with
    | some e => exact Or.inl hd
    | none =>
      simp only at hd
      rcases hg : repo.Get x1.ID w.state with ⟨⟨gd, ge⟩, st⟩
      rw [hg] at hd
      cases ge with
      | some e =>
        simp only [persistedDocs_append, List.mem_append, or_assoc] at hd
        rcases hd with hd | hd
        · exact Or.inl hd
        · simp [persistedDocs, RepoCall.written] at hd
      | none =>
        simp only [persistedDocs_append, List.mem_append, or_assoc] at hd
        rcases hd with hd | hd
        · exact Or.inl hd
        · simp [persistedDocs, RepoCall.written] at hd
          subst hd; exact Or.inr (hv rfl)

theorem runOps_persisted {σ : Type} (repo : documentRepositoryInterface σ)
    (ops : List ServiceOp) (w : RepoWorld σ) (d : Document)
    (hd : d ∈ persistedDocs (runOps repo ops w).calls) :
    d ∈ persistedDocs w.calls ∨ (Trimmed d.Title ∧ Trimmed d.Signee) := by
  induction ops generalizing w with
  | nil => exact Or.inl hd
  | cons op ops ih =>
    rcases ih (runOp repo op w) hd with h | h
    · exact runOp_persisted repo op w d h
    · exact Or.inr h

/-- C10: starting from an empty call log, after any sequence of service
operations against any repository, every document that was passed to
repository `Create` or repository `Update` has a title and a signee that are
non-empty, equal their own trimmed form, and neither start nor end with
white space. -/
theorem service_writes_trimmed {σ : Type} (repo : documentRepositoryInterface σ)
    (ops : List ServiceOp) (st : σ) (d : Document)
    (hd : d ∈ persistedDocs (runOps repo ops ⟨st, []⟩).calls) :
    Trimmed d.Title ∧ Trimmed d.Signee := by
  rcases runOps_persisted repo ops ⟨st, []⟩ d hd with h | h
  · simp [persistedDocs] at h
  · exact h

/-- Witness for C10: a padded create, a blank update and a padded update; the
two writes that reach the repository carry the trimmed fields. -/
theorem service_writes_trimmed_witness :
    persistedDocs (runOps
        (dBMock (some ⟨3, str "t", ⟨[], []⟩, str "s"⟩, none) (none, none) (none, none) none
          (none, none))
        [ServiceOp.Create ⟨0, str "  a ", ⟨[], []⟩, str "\tb"⟩,
          ServiceOp.Update ⟨3, str "   ", ⟨[], []⟩, str "b"⟩,
          ServiceOp.Update ⟨3, str " c", ⟨[], []⟩, str "d\n"⟩] ⟨(), []⟩).calls =
      [⟨0, str "a", ⟨[], []⟩, str "b"⟩, ⟨3, str "c", ⟨[], []⟩, str "d"⟩] ∧
    Trimmed (str "c") ∧ Trimmed (str "d") :=
  ⟨by decide,
    service_writes_trimmed
      (dBMock (some ⟨3, str "t", ⟨[], []⟩, str "s"⟩, none) (none, none) (none, none) none
        (none, none))
      [ServiceOp.Create ⟨0, str "  a ", ⟨[], []⟩, str "\tb"⟩,
        ServiceOp.Update ⟨3, str "   ", ⟨[], []⟩, str "b"⟩,
        ServiceOp.Update ⟨3, str " c", ⟨[], []⟩, str "d\n"⟩] () ⟨3, str "c", ⟨[], []⟩, str "d"⟩
      (by decide)⟩

/-! ### `strconv.ParseInt` -/

theorem foldl_digits_ge (s : GoString) (n : Nat) :
    n ≤ s.foldl (fun n c => n * 10 + (c.val - 0x30)) n := by
  induction s generalizing n with
  | nil => exact le_rfl
  | cons c t ih =>
    simp only [List.foldl_cons]
    exact le_trans (by omega) (ih _)

theorem parseUintLoop_digits (s : GoString) (n : Nat) (h : ∀ c ∈ s, isDigit c)
    (hn : n ≤ 2 ^ 64 - 1) :
    parseUintLoop s n =
      some (if s.foldl (fun n c => n * 10 + (c.val - 0x30)) n ≤ 2 ^ 64 - 1
        then (s.foldl (fun n c => n * 10 + (c.val - 0x30)) n, true)
        else (2 ^ 64 - 1, false)) := by
  induction s generalizing n with
  | nil =>
    simp only [parseUintLoop, List.foldl_nil]
    rw [if_pos hn]
  | cons c t ih =>
    have hc : 0x30 ≤ c.val ∧ c.val ≤ 0x39 := h c (List.mem_cons_self _ _)
    have ht : ∀ x ∈ t, isDigit x := fun x hx => h x (List.mem_cons_of_mem _ hx)
    have hge := foldl_digits_ge t (n * 10 + (c.val - 0x30))
    simp only [parseUintLoop, List.foldl_cons]
    rw [if_pos hc]
    by_cases h1 : n ≥ (2 ^ 64 - 1) / 10 + 1
    · rw [if_pos h1, if_neg (by omega)]
    · rw [if_neg h1]
      by_cases h2 : n * 10 + (c.val - 0x30) > 2 ^ 64 - 1
      · rw [if_pos h2, if_neg (by omega)]
      · rw [if_neg h2]
        exact ih _ ht (by omega)

/-- On a non-empty string of decimal digits, `ParseInt` returns the value
when it is below 2^63 and a range error otherwise. -/
theorem parseInt_digits (s : GoString) (hne : s ≠ []) (h : ∀ c ∈ s, isDigit c) :
    ParseInt s =
      if decimalValue s < 2 ^ 63 then ((decimalValue s : Int), none)
      else (2 ^ 63 - 1, some (NumError strconvErrRange)) := by
  rcases s with _ | ⟨c, t⟩
  · exact absurd rfl hne
  have hc : 0x30 ≤ c.val ∧ c.val ≤ 0x39 := h c (List.mem_cons_self _ _)
  have hloop := parseUintLoop_digits (c :: t) 0 h (by omega)
  unfold ParseInt
  simp only
  rw [if_neg (by omega), hloop]
  unfold decimalValue
  generalize List.foldl (fun n c => n * 10 + (c.val - 0x30)) 0 (c :: t) = v
  have hneg : ¬ c.val = 0x2D := by omega
  by_cases hv : v ≤ 2 ^ 64 - 1
  · rw [if_pos hv]
    simp only [hneg]
    by_cases h63 : v < 2 ^ 63
    · rw [if_pos h63]
      simp
      omega
    · rw [if_neg h63]
      simp
      omega
  · rw [if_neg hv, if_neg (by omega)]
    simp [hneg]

/-- A byte that is neither a decimal digit nor a sign makes `ParseUint`'s
loop fail, unless an overflow is met first. -/
theorem parseUintLoop_nondigit (s : GoString) (n : Nat)
    (h : ∃ c ∈ s, ¬ isDigit c) :
    parseUintLoop s n = none ∨ parseUintLoop s n = some (2 ^ 64 - 1, false) := by
  induction s generalizing n with
  | nil => simp at h
  | cons c t ih =>
    simp only [parseUintLoop]
    by_cases hc : 0x30 ≤ c.val ∧ c.val ≤ 0x39
    · rw [if_pos hc]
      obtain ⟨x, hx, hnd⟩ := h
      have hxt : x ∈ t := by
        rcases List.mem_cons.mp hx with rfl | hxt
        · exact absurd hc hnd
        · exact hxt
      split_ifs
      · exact Or.inr rfl
      · exact Or.inr rfl
      · exact ih _ ⟨x, hxt, hnd⟩
    · rw [if_neg hc]
      exact Or.inl rfl

/-- `ParseInt` rejects the empty string and every string holding a byte
that is neither a decimal digit nor a sign. -/
theorem parseInt_rejects :
    (ParseInt []).2 = some (NumError strconvErrSyntax) ∧
    (∀ s : GoString, (∃ c ∈ s, ¬ isDigit c ∧ c.val ≠ 0x2B ∧ c.val ≠ 0x2D) →
      (ParseInt s).2 ≠ none) := by
  refine ⟨rfl, ?_⟩
  intro s ⟨x, hx, hnd, hp, hm⟩
  rcases s with _ | ⟨c, t⟩
  · simp at hx
  unfold ParseInt
  simp only
  have hmem : x ∈ (if c.val = 0x2B ∨ c.val = 0x2D then t else c :: t) := by
    split_ifs with hs
    · rcases List.mem_cons.mp hx with rfl | hxt
      · rcases hs with hs | hs
        · exact absurd hs hp
        · exact absurd hs hm
      · exact hxt
    · exact hx
  generalize (if c.val = 0x2B ∨ c.val = 0x2D then t else c :: t) = digits at hmem
  rcases digits with _ | ⟨d0, dt⟩
  · simp
  simp only
  rcases parseUintLoop_nondigit (d0 :: dt) 0 ⟨x, hmem, hnd⟩ with h | h
  · rw [h]; simp
  · rw [h]
    by_cases hneg : c.val = 0x2D <;> simp [hneg]

/-! ### The handlers -/

/-- C5 (as amended): after a well-formed request, each handler classifies
the service's error by identity (`errors.Is`) with its own rule: create
answers 422 for a validation sentinel and 500 otherwise; update answers 404
for not-found, else 422 for a validation sentinel, else 500; delete and
get-by-id answer 404 for not-found and 500 otherwise; get-all answers 500.
An error that merely carries a sentinel's message text is none of the
sentinels. -/
theorem handler_error_codes {τ : Type} (svc : documentServiceInterface τ)
    (w : ServiceWorld τ) :
    (∀ r d e, DecodeDocument r.Body zeroDocument = (d, none) →
      (svc.Create d w.state).1.2 = some e →
      (CreateHandler svc r w).1.Code =
        if errorsIs e GoError.TitleInvalidValue || errorsIs e GoError.SigneeInvalidValue
        then 422 else 500) ∧
    (∀ r d id e, DecodeDocument r.Body zeroDocument = (d, none) →
      ParseInt (muxVar r "id") = (id, none) →
      (svc.Update { d with ID := id } w.state).1.2 = some e →
      (UpdateHandler svc r w).1.Code =
        if errorsIs e GoError.ErrNoRows then 404
        else if errorsIs e GoError.TitleInvalidValue || errorsIs e GoError.SigneeInvalidValue
        then 422 else 500) ∧
    (∀ r id e, ParseInt (muxVar r "id") = (id, none) →
      (svc.Delete id w.state).1 = some e →
      (DeleteHandler svc r w).1.Code = if errorsIs e GoError.ErrNoRows then 404 else 500) ∧
    (∀ r id e, ParseInt (muxVar r "id") = (id, none) →
      (svc.Get id w.state).1.2 = some e →
      (GetByIdHandler svc r w).1.Code = if errorsIs e GoError.ErrNoRows then 404 else 500) ∧
    (∀ r e, (svc.GetAll w.state).1.2 = some e → (GetAllHandler svc r w).1.Code = 500) ∧
    (∀ n msg, errorsIs (GoError.other n msg) GoError.ErrNoRows = false ∧
      errorsIs (GoError.other n msg) GoError.TitleInvalidValue = false ∧
      errorsIs (GoError.other n msg) GoError.SigneeInvalidValue = false) := by
  refine ⟨?_, ?_, ?_, ?_, ?_, ?_⟩
  · intro r d e hd he
    unfold CreateHandler
    rw [hd]
    rcases hs : svc.Create d w.state with ⟨⟨x, err⟩, st⟩
    rw [hs] at he
    simp only at he
    subst he
    simp only [hs]
    split_ifs <;> rfl
  · intro r d id e hd hp he
    unfold UpdateHandler
    rw [hd]
    simp only [hp]
    rcases hs : svc.Update { d with ID := id } w.state with ⟨⟨x, err⟩, st⟩
    rw [hs] at he
    simp only at he
    subst he
    simp only [hs]
    split_ifs <;> rfl
  · intro r id e hp he
    unfold DeleteHandler
    simp only [hp]
    rcases hs : svc.Delete id w.state with ⟨err, st⟩
    rw [hs] at he
    simp only at he
    subst he
    simp only [hs]
    split_ifs <;> rfl
  · intro r id e hp he
    unfold GetByIdHandler
    simp only [hp]
    rcases hs : svc.Get id w.state with ⟨⟨x, err⟩, st⟩
    rw [hs] at he
    simp only at he
    subst he
    simp only [hs]
    split_ifs <;> rfl
  · intro r e he
    unfold GetAllHandler
    rcases hs : svc.GetAll w.state with ⟨⟨x, err⟩, st⟩
    rw [hs] at he
    simp only at he
    subst he
    rfl
  · intro n msg
    simp [errorsIs]

/-- Counterexample to C5 as stated: a create request whose service call
fails with the not-found sentinel is answered 500, where the claim's single
rule gives 404; and a delete request whose service call fails with the
title-invalid sentinel is answered 500, where the rule gives 422. -/
theorem handler_error_codes_counterexample :
    (CreateHandler (serviceMock (none, none) (none, some GoError.ErrNoRows) (none, none) none
        (none, none)) ⟨str "\x7b\"title\":\"t\",\"signee\":\"s\"\x7d", []⟩ ⟨(), []⟩).1.Code = 500 ∧
    specErrorCode GoError.ErrNoRows = 404 ∧
    (DeleteHandler (serviceMock (none, none) (none, none) (none, none)
        (some GoError.TitleInvalidValue) (none, none)) ⟨[], [("id", str "1")]⟩ ⟨(), []⟩).1.Code
      = 500 ∧
    specErrorCode GoError.TitleInvalidValue = 422 := by
  decide

/-- C6 (as amended): when the decoder, which reads the first JSON value of
the body and nothing after it, returns an error, the create and the update
handler answer 400 with status false, carrying the decoder's error and no
payload, and leave the service world as it was (no service call is logged),
whatever the route variables hold. -/
theorem handler_bad_body {τ : Type} (svc : documentServiceInterface τ) (r : Request)
    (w : ServiceWorld τ) (d : Document) (e : GoError)
    (h : DecodeDocument r.Body zeroDocument = (d, some e)) :
    CreateHandler svc r w = (⟨400, ⟨400, false, Payload.nil, e.Error⟩⟩, w) ∧
    UpdateHandler svc r w = (⟨400, ⟨400, false, Payload.nil, e.Error⟩⟩, w) := by
  unfold CreateHandler UpdateHandler
  rw [h]
  exact ⟨rfl, rfl⟩

/-- Witness for C6: the body of the handler test, whose title is a number,
with a route variable that is not even numeric; and a body that breaks off
inside its first value. -/
theorem handler_bad_body_witness :
    (CreateHandler (serviceMock (none, none) (none, none) (none, none) none (none, none))
        ⟨str "\x7b\"title\": 123, \"signee\": \"updated signee\"\x7d", [("id", str "x")]⟩ ⟨(), []⟩ =
      (⟨400, ⟨400, false, Payload.nil, jsonUnmarshalTypeError.Error⟩⟩, ⟨(), []⟩) ∧
    UpdateHandler (serviceMock (none, none) (none, none) (none, none) none (none, none))
        ⟨str "\x7b\"title\": 123, \"signee\": \"updated signee\"\x7d", [("id", str "x")]⟩ ⟨(), []⟩ =
      (⟨400, ⟨400, false, Payload.nil, jsonUnmarshalTypeError.Error⟩⟩, ⟨(), []⟩)) ∧
    (CreateHandler (serviceMock (none, none) (none, none) (none, none) none (none, none))
        ⟨str "\x7b\"title\": \"t\", \"signee\"", [("id", str "1")]⟩ ⟨(), []⟩ =
      (⟨400, ⟨400, false, Payload.nil, jsonSyntaxError.Error⟩⟩, ⟨(), []⟩) ∧
    UpdateHandler (serviceMock (none, none) (none, none) (none, none) none (none, none))
        ⟨str "\x7b\"title\": \"t\", \"signee\"", [("id", str "1")]⟩ ⟨(), []⟩ =
      (⟨400, ⟨400, false, Payload.nil, jsonSyntaxError.Error⟩⟩, ⟨(), []⟩)) :=
  ⟨handler_bad_body _
      ⟨str "\x7b\"title\": 123, \"signee\": \"updated signee\"\x7d", [("id", str "x")]⟩
      ⟨(), []⟩ ⟨0, [], ⟨[], []⟩, str "updated signee"⟩ jsonUnmarshalTypeError (by decide),
    handler_bad_body _ ⟨str "\x7b\"title\": \"t\", \"signee\"", [("id", str "1")]⟩
      ⟨(), []⟩ zeroDocument jsonSyntaxError (by decide)⟩

/-- Counterexample to C6 as stated: a body that is not valid JSON, a
well-formed object followed by stray braces and text, is decoded from its
first value alone; the create handler calls the service and answers 201, and
the update handler calls the service and answers 200. -/
theorem handler_bad_body_counterexample :
    jsonValid (str "\x7b\"title\":\"t\",\"signee\":\"s\"\x7d\x7d\x7d garbage") = false ∧
    CreateHandler (serviceMock (none, none) (some ⟨1, str "t", ⟨[], []⟩, str "s"⟩, none)
        (none, none) none (none, none))
        ⟨str "\x7b\"title\":\"t\",\"signee\":\"s\"\x7d\x7d\x7d garbage", []⟩ ⟨(), []⟩ =
      (⟨201, ⟨201, true, Payload.document (some ⟨1, str "t", ⟨[], []⟩, str "s"⟩), ""⟩⟩,
        ⟨(), [ServiceOp.Create ⟨0, str "t", ⟨[], []⟩, str "s"⟩]⟩) ∧
    UpdateHandler (serviceMock (none, none) (none, none)
        (some ⟨1, str "t", ⟨[], []⟩, str "s"⟩, none) none (none, none))
        ⟨str "\x7b\"title\":\"t\",\"signee\":\"s\"\x7d\x7d\x7d garbage", [("id", str "1")]⟩
        ⟨(), []⟩ =
      (⟨200, ⟨200, true, Payload.document (some ⟨1, str "t", ⟨[], []⟩, str "s"⟩), ""⟩⟩,
        ⟨(), [ServiceOp.Update ⟨1, str "t", ⟨[], []⟩, str "s"⟩]⟩) := by
  decide

/-- When the route variable does not parse as a base-10 signed 64-bit
integer, the get-by-id and the delete handler answer 400 and leave the service
world as it was, and so does the update handler whenever the body decodes. -/
theorem handler_bad_id {τ : Type} (svc : documentServiceInterface τ) (r : Request)
    (w : ServiceWorld τ) (n : Int) (e : GoError)
    (h : ParseInt (muxVar r "id") = (n, some e)) :
    GetByIdHandler svc r w = (⟨400, ⟨400, false, Payload.nil, e.Error⟩⟩, w) ∧
    DeleteHandler svc r w = (⟨400, ⟨400, false, Payload.nil, e.Error⟩⟩, w) ∧
    (∀ d, DecodeDocument r.Body zeroDocument = (d, none) →
      UpdateHandler svc r w = (⟨400, ⟨400, false, Payload.nil, e.Error⟩⟩, w)) := by
  unfold GetByIdHandler DeleteHandler UpdateHandler
  rw [h]
  refine ⟨rfl, rfl, ?_⟩
  intro d hd
  rw [hd]
  rfl

/-- The handlers on a digit string one above the largest 64-bit signed
integer, which the route pattern lets through. -/
theorem handler_bad_id_overflow :
    GetByIdHandler (serviceMock (none, none) (none, none) (none, none) none (none, none))
        ⟨[], [("id", str "9223372036854775808")]⟩ ⟨(), []⟩ =
      (⟨400, ⟨400, false, Payload.nil, (NumError strconvErrRange).Error⟩⟩, ⟨(), []⟩) :=
  (handler_bad_id _ ⟨[], [("id", str "9223372036854775808")]⟩ ⟨(), []⟩ (2 ^ 63 - 1)
    (NumError strconvErrRange) (by decide)).1

/-! ### The route table -/

theorem stripPrefix_append (p s : GoString) : stripPrefix p (p ++ s) = some s := by
  induction p with
  | nil => cases s <;> rfl
  | cons a p ih => simp [stripPrefix, ih]

theorem digitsOnly_isDigit (s : GoString) :
    digitsOnly s = true ↔ ∀ c ∈ s, isDigit c := by
  simp [digitsOnly, isDigit]

theorem str_documents_slash :
    str "/documents/" = [0x2F, 0x64, 0x6F, 0x63, 0x75, 0x6D, 0x65, 0x6E, 0x74, 0x73, 0x2F] := by
  decide

theorem str_documents :
    str "/documents" = [0x2F, 0x64, 0x6F, 0x63, 0x75, 0x6D, 0x65, 0x6E, 0x74, 0x73] := by
  decide

theorem documentPath_ne_documents (id : GoString) : documentPath id ≠ str "/documents" := by
  intro h
  have := congrArg List.length h
  rw [documentPath, str_documents_slash, str_documents] at this
  simp at this

theorem splitSlash_noSlash (s : GoString) (h : ∀ c ∈ s, c.val ≠ 0x2F) : splitSlash s = [s] := by
  induction s with
  | nil => rfl
  | cons c s ih =>
    have hc : c.val ≠ 0x2F := h c (List.mem_cons_self _ _)
    have hs := ih (fun x hx => h x (List.mem_cons_of_mem _ hx))
    simp [splitSlash, hc, hs]

theorem splitSlash_append_slash (a t : GoString)
    (h : a.all (fun c => decide (c.val ≠ 0x2F)) = true) :
    splitSlash (a ++ 0x2F :: t) = a :: splitSlash t := by
  induction a with
  | nil =>
    simp only [List.nil_append, splitSlash]
    rw [if_pos (by decide)]
  | cons c a ih =>
    simp only [List.all_cons, Bool.and_eq_true, decide_eq_true_eq] at h
    have ih2 := ih h.2
    simp only [List.cons_append, splitSlash]
    rw [if_neg h.1]
    show (match splitSlash (a ++ 0x2F :: t) with
      | [] => [[c]]
      | e :: es => (c :: e) :: es) = _
    rw [ih2]

theorem splitSlash_documentPath (id : GoString) (h : ∀ c ∈ id, c.val ≠ 0x2F) :
    splitSlash (documentPath id) =
      [[], [0x64, 0x6F, 0x63, 0x75, 0x6D, 0x65, 0x6E, 0x74, 0x73], id] := by
  have e : documentPath id =
      [] ++ 0x2F :: ([0x64, 0x6F, 0x63, 0x75, 0x6D, 0x65, 0x6E, 0x74, 0x73] ++ 0x2F :: id) := by
    rw [documentPath, str_documents_slash]
    rfl
  rw [e, splitSlash_append_slash _ _ (by decide), splitSlash_append_slash _ _ (by decide),
    splitSlash_noSlash id h]

/-- A path `/documents/id` whose identifier holds no slash and is neither
`.` nor `..` is in canonical form. -/
theorem cleanPath_documentPath (id : GoString) (h : ∀ c ∈ id, c.val ≠ 0x2F)
    (h1 : id ≠ [0x2E]) (h2 : id ≠ [0x2E, 0x2E]) : cleanPath (documentPath id) = documentPath id := by
  rcases id with _ | ⟨c, t⟩
  · decide
  unfold cleanPath
  have hp : documentPath (c :: t) ≠ [] := by
    rw [documentPath, str_documents_slash]
    simp
  have hh : (documentPath (c :: t)).head?.map (fun c => c.val) = some 0x2F := by
    rw [documentPath, str_documents_slash]
    rfl
  have hl : ¬ ((documentPath (c :: t)).getLast?.map (fun c => c.val) = some 0x2F) := by
    rw [documentPath, List.getLast?_append, List.getLast?_eq_getLast _ (List.cons_ne_nil c t)]
    show ¬ (some ((c :: t).getLast (List.cons_ne_nil c t)).val = some 0x2F)
    rw [Option.some.injEq]
    exact h _ (List.getLast_mem _)
  have hce : cleanElems [[], [0x64, 0x6F, 0x63, 0x75, 0x6D, 0x65, 0x6E, 0x74, 0x73], c :: t] [] =
      [[0x64, 0x6F, 0x63, 0x75, 0x6D, 0x65, 0x6E, 0x74, 0x73], c :: t] := by
    simp only [cleanElems, true_or, if_true]
    rw [if_neg (by decide), if_neg (by decide), if_neg (by simp [h1]), if_neg h2]
    rfl
  rw [if_neg hp]
  simp only [hh, if_true]
  rw [splitSlash_documentPath _ h, hce, if_neg (fun hc => hl hc.1), documentPath,
    str_documents_slash]
  rfl

theorem matchPath_id (ms : List String) (hn : HandlerName) (id : GoString) :
    Route.matchPath ⟨str "/documents/", true, ms, hn⟩ (documentPath id) =
      if id ≠ [] ∧ digitsOnly id = true then some [("id", id)] else none := by
  unfold Route.matchPath
  simp only [if_true]
  rw [documentPath, stripPrefix_append]

theorem matchPath_literal (ms : List String) (hn : HandlerName) (id : GoString) :
    Route.matchPath ⟨str "/documents", false, ms, hn⟩ (documentPath id) = none := by
  unfold Route.matchPath
  simp only [Bool.false_eq_true, if_false]
  rw [if_neg (documentPath_ne_documents id)]

/-- A path `/documents/id` with a non-empty identifier of digits goes to the
update handler on `PUT`, to the delete handler on `DELETE` and to the
get-by-id handler on every other method, with the identifier as the route
variable. -/
theorem matchRoutes_digits (id : GoString) (hne : id ≠ []) (hd : digitsOnly id = true)
    (method : String) :
    matchRoutes mainRoutes method (documentPath id) false =
      RouteMatch.handle
        (if method = "PUT" then HandlerName.UpdateHandler
          else if method = "DELETE" then HandlerName.DeleteHandler
          else HandlerName.GetByIdHandler) [("id", id)] := by
  simp only [mainRoutes, matchRoutes, matchPath_literal, matchPath_id, hne, hd,
    ne_eq, not_false_eq_true, and_self, if_true, List.mem_singleton, false_or, true_or,
    List.cons_ne_nil, reduceCtorEq]
  by_cases h1 : method = "PUT"
  · simp [h1]
  · by_cases h2 : method = "DELETE"
    · simp [h2]
    · simp [h1, h2]

/-- A path `/documents/id` whose identifier is empty or holds a byte that is
not a digit matches no route. -/
theorem matchRoutes_bad_id (id : GoString) (h : id = [] ∨ digitsOnly id = false)
    (method : String) :
    matchRoutes mainRoutes method (documentPath id) false = RouteMatch.notFound := by
  have hn : ¬ (id ≠ [] ∧ digitsOnly id = true) := by
    rcases h with h | h
    · simp [h]
    · simp [h]
  simp only [mainRoutes, matchRoutes, matchPath_literal, matchPath_id,
    if_neg hn]
  rfl

/-- On the route table of `main` the router never answers that the method is
not allowed: for each path template the last route is open to every method. -/
theorem matchRoutes_main_allowed (method : String) (path : GoString) :
    matchRoutes mainRoutes method path false ≠ RouteMatch.methodNotAllowed := by
  simp only [mainRoutes, matchRoutes, Route.matchPath, if_true, Bool.false_eq_true, if_false]
  by_cases hp : path = str "/documents"
  · simp only [hp, if_true]
    have hs : stripPrefix (str "/documents/") (str "/documents") = none := by decide
    rw [hs]
    split_ifs <;> simp_all
  · simp only [hp, if_false]
    rcases hs : stripPrefix (str "/documents/") path with _ | id
    · simp
    · by_cases hid : id ≠ [] ∧ digitsOnly id = true
      · simp only [hid, and_self, if_true]
        split_ifs <;> simp_all
      · simp only [if_neg hid]
        simp

/-- A request for `/documents/id` with a non-empty identifier of digits is
served by the handler its method selects, which reads the identifier as the
route variable. -/
theorem serve_digits {τ : Type} (svc : documentServiceInterface τ) (w : ServiceWorld τ)
    (id body : GoString) (hne : id ≠ []) (hd : digitsOnly id = true) (method : String) :
    ServeHTTP svc ⟨method, documentPath id, body⟩ w =
      (HttpReply.envelope (runHandler svc
          (if method = "PUT" then HandlerName.UpdateHandler
            else if method = "DELETE" then HandlerName.DeleteHandler
            else HandlerName.GetByIdHandler) ⟨body, [("id", id)]⟩ w).1,
        (runHandler svc
          (if method = "PUT" then HandlerName.UpdateHandler
            else if method = "DELETE" then HandlerName.DeleteHandler
            else HandlerName.GetByIdHandler) ⟨body, [("id", id)]⟩ w).2) := by
  have hdig := (digitsOnly_isDigit id).mp hd
  have hc : cleanPath (documentPath id) = documentPath id := by
    apply cleanPath_documentPath
    · intro c hc h
      have := hdig c hc
      unfold isDigit at this
      omega
    · intro h
      subst h
      exact absurd hd (by decide)
    · intro h
      subst h
      exact absurd hd (by decide)
  unfold ServeHTTP
  simp only [hc, ne_eq, not_true_eq_false, if_false, matchRoutes_digits id hne hd]

/-- A request for `/documents/id` whose identifier is empty or holds a byte
that is not a digit reaches no handler: the router redirects it when the path
is not in canonical form and answers not found otherwise. -/
theorem serve_bad_id {τ : Type} (svc : documentServiceInterface τ) (w : ServiceWorld τ)
    (id body : GoString) (h : id = [] ∨ digitsOnly id = false) (method : String) :
    ServeHTTP svc ⟨method, documentPath id, body⟩ w =
      (if cleanPath (documentPath id) = documentPath id then HttpReply.notFound
        else HttpReply.movedPermanently (cleanPath (documentPath id)), w) := by
  unfold ServeHTTP
  by_cases hc : cleanPath (documentPath id) = documentPath id
  · simp only [hc, ne_eq, not_true_eq_false, if_false, if_true, matchRoutes_bad_id id h]
  · simp only [hc, ne_eq, not_false_eq_true, if_true, if_false]

/-- C7 (as amended): let the identifier be a string that does not parse as a
base-10 signed 64-bit integer. (1) A get-by-id, delete or update handler that
reads it as its route variable answers 400 with status false and leaves the
service world as it was (update: when the body decodes). (2) Through the
route table of `main`, the identifier reaches a handler only when it is a
non-empty string of digits; its value is then 2^63 or more, the error is the
range error, and the request for `/documents/id` is answered 400 with the
service world unchanged, by the delete handler on `DELETE`, by the update
handler on `PUT` (when the body decodes) and by the get-by-id handler on every
other method. (3) When the identifier is empty or holds a byte that is not a
digit, no route matches `/documents/id`: the router answers not found (404),
or redirects (301) a path that is not in canonical form, and the service world
is unchanged. (4) The path is in canonical form whenever the identifier holds
no slash and is neither `.` nor `..`. -/
theorem bad_id_requests {τ : Type} (svc : documentServiceInterface τ) (w : ServiceWorld τ)
    (id body : GoString) (n : Int) (e : GoError) (h : ParseInt id = (n, some e)) :
    (∀ r : Request, muxVar r "id" = id →
      GetByIdHandler svc r w = (⟨400, ⟨400, false, Payload.nil, e.Error⟩⟩, w) ∧
      DeleteHandler svc r w = (⟨400, ⟨400, false, Payload.nil, e.Error⟩⟩, w) ∧
      (∀ d, DecodeDocument r.Body zeroDocument = (d, none) →
        UpdateHandler svc r w = (⟨400, ⟨400, false, Payload.nil, e.Error⟩⟩, w))) ∧
    (id ≠ [] → digitsOnly id = true →
      2 ^ 63 ≤ decimalValue id ∧ e = NumError strconvErrRange ∧
      (∀ method : String, method ≠ "PUT" → method ≠ "DELETE" →
        ServeHTTP svc ⟨method, documentPath id, body⟩ w =
          (HttpReply.envelope ⟨400, ⟨400, false, Payload.nil, e.Error⟩⟩, w)) ∧
      ServeHTTP svc ⟨"DELETE", documentPath id, body⟩ w =
        (HttpReply.envelope ⟨400, ⟨400, false, Payload.nil, e.Error⟩⟩, w) ∧
      (∀ d, DecodeDocument body zeroDocument = (d, none) →
        ServeHTTP svc ⟨"PUT", documentPath id, body⟩ w =
          (HttpReply.envelope ⟨400, ⟨400, false, Payload.nil, e.Error⟩⟩, w))) ∧
    ((id = [] ∨ digitsOnly id = false) → ∀ method : String,
      ServeHTTP svc ⟨method, documentPath id, body⟩ w =
        (if cleanPath (documentPath id) = documentPath id then HttpReply.notFound
          else HttpReply.movedPermanently (cleanPath (documentPath id)), w)) ∧
    ((∀ c ∈ id, c.val ≠ 0x2F) → id ≠ str "." → id ≠ str ".." →
      cleanPath (documentPath id) = documentPath id) := by
  refine ⟨?_, ?_, ?_, ?_⟩
  · intro r hr
    exact handler_bad_id svc r w n e (by rw [hr]; exact h)
  · intro hne hd
    have hp := parseInt_digits id hne ((digitsOnly_isDigit id).mp hd)
    rw [h] at hp
    have hv : 2 ^ 63 ≤ decimalValue id := by
      by_contra hlt
      rw [if_pos (by omega)] at hp
      simp at hp
    rw [if_neg (by omega)] at hp
    have he : e = NumError strconvErrRange := by
      have := congrArg Prod.snd hp
      simpa using this
    have hb := handler_bad_id svc ⟨body, [("id", id)]⟩ w n e h
    refine ⟨hv, he, ?_, ?_, ?_⟩
    · intro method h1 h2
      rw [serve_digits svc w id body hne hd, if_neg h1, if_neg h2]
      show (HttpReply.envelope (GetByIdHandler svc ⟨body, [("id", id)]⟩ w).1,
        (GetByIdHandler svc ⟨body, [("id", id)]⟩ w).2) = _
      rw [hb.1]
    · rw [serve_digits svc w id body hne hd, if_neg (by decide), if_pos rfl]
      show (HttpReply.envelope (DeleteHandler svc ⟨body, [("id", id)]⟩ w).1,
        (DeleteHandler svc ⟨body, [("id", id)]⟩ w).2) = _
      rw [hb.2.1]
    · intro d hd2
      rw [serve_digits svc w id body hne hd, if_pos rfl]
      show (HttpReply.envelope (UpdateHandler svc ⟨body, [("id", id)]⟩ w).1,
        (UpdateHandler svc ⟨body, [("id", id)]⟩ w).2) = _
      rw [hb.2.2 d hd2]
  · intro hbad method
    exact serve_bad_id svc w id body hbad method
  · intro hs h1 h2
    exact cleanPath_documentPath id hs h1 h2

/-- Witness for C7: the identifier one above the largest 64-bit signed
integer passes the route pattern and is answered 400 by the get-by-id
handler; the identifier `abc` fails to parse as well, and its request is
answered not found by the router. -/
theorem bad_id_requests_witness :
    ServeHTTP (serviceMock (none, none) (none, none) (none, none) none (none, none))
        ⟨"GET", documentPath (str "9223372036854775808"), []⟩ ⟨(), []⟩ =
      (HttpReply.envelope ⟨400, ⟨400, false, Payload.nil, (NumError strconvErrRange).Error⟩⟩,
        ⟨(), []⟩) ∧
    ServeHTTP (serviceMock (none, none) (none, none) (none, none) none (none, none))
        ⟨"GET", documentPath (str "abc"), []⟩ ⟨(), []⟩ = (HttpReply.notFound, ⟨(), []⟩) :=
  ⟨((bad_id_requests _ ⟨(), []⟩ (str "9223372036854775808") [] (2 ^ 63 - 1)
      (NumError strconvErrRange) (by decide)).2.1 (by decide) (by decide)).2.2.1 "GET"
      (by decide) (by decide),
    (bad_id_requests _ ⟨(), []⟩ (str "abc") [] 0 (NumError strconvErrSyntax) (by decide)).2.2.1
      (Or.inr (by decide)) "GET"⟩

/-- Counterexample to C7 as stated: the identifiers `abc` and the empty
string do not parse as integers, yet the requests `GET /documents/abc` and
`DELETE /documents/` are answered by the router with not found, status 404,
not by a handler with 400. And the identifier `-5` holds a byte that is not a
digit, yet it parses: a handler that reads it calls the service, and the
router answers the `GET` request for it with not found. -/
theorem bad_id_requests_counterexample :
    (ParseInt (str "abc")).2 = some (NumError strconvErrSyntax) ∧
    ServeHTTP (serviceMock (none, none) (none, none) (none, none) none (none, none))
        ⟨"GET", str "/documents/abc", []⟩ ⟨(), []⟩ = (HttpReply.notFound, ⟨(), []⟩) ∧
    (ParseInt (str "")).2 = some (NumError strconvErrSyntax) ∧
    ServeHTTP (serviceMock (none, none) (none, none) (none, none) none (none, none))
        ⟨"DELETE", str "/documents/", []⟩ ⟨(), []⟩ = (HttpReply.notFound, ⟨(), []⟩) ∧
    HttpReply.notFound.status = 404 ∧
    ParseInt (str "-5") = (-5, none) ∧
    GetByIdHandler (serviceMock (some ⟨-5, str "t", ⟨[], []⟩, str "s"⟩, none) (none, none)
        (none, none) none (none, none)) ⟨[], [("id", str "-5")]⟩ ⟨(), []⟩ =
      (⟨200, ⟨200, true, Payload.document (some ⟨-5, str "t", ⟨[], []⟩, str "s"⟩), ""⟩⟩,
        ⟨(), [ServiceOp.Get (-5)]⟩) ∧
    ServeHTTP (serviceMock (some ⟨-5, str "t", ⟨[], []⟩, str "s"⟩, none) (none, none)
        (none, none) none (none, none)) ⟨"GET", documentPath (str "-5"), []⟩ ⟨(), []⟩ =
      (HttpReply.notFound, ⟨(), []⟩) := by
  decide

/-! ### UTF-8 and the JSON round trip -/

theorem leadInfo_range (x sz lo hi : Nat) (h : leadInfo x = some (sz, lo, hi)) :
    (sz = 2 ∧ 0xC2 ≤ x ∧ x ≤ 0xDF ∧ lo = 0x80 ∧ hi = 0xBF) ∨
    (sz = 3 ∧ x = 0xE0 ∧ lo = 0xA0 ∧ hi = 0xBF) ∨
    (sz = 3 ∧ x = 0xED ∧ lo = 0x80 ∧ hi = 0x9F) ∨
    (sz = 3 ∧ 0xE1 ≤ x ∧ x ≤ 0xEF ∧ x ≠ 0xED ∧ lo = 0x80 ∧ hi = 0xBF) ∨
    (sz = 4 ∧ x = 0xF0 ∧ lo = 0x90 ∧ hi = 0xBF) ∨
    (sz = 4 ∧ 0xF1 ≤ x ∧ x ≤ 0xF3 ∧ lo = 0x80 ∧ hi = 0xBF) ∨
    (sz = 4 ∧ x = 0xF4 ∧ lo = 0x80 ∧ hi = 0x8F) := by
  unfold leadInfo at h
  split_ifs at h <;> simp at h <;> omega

theorem byte_ofNat (b : Byte) (n : Nat) (h : n = b.val) : (Fin.ofNat n : Byte) = b := by
  subst h
  apply Fin.ext
  simp [Fin.ofNat]

theorem decode_ascii (a : Byte) (t : GoString) (h : a.val < 0x80) :
    DecodeRuneInString (a :: t) = (a.val, 1) := by
  simp [DecodeRuneInString, RuneSelf, h]

theorem decode_two (a b : Byte) (t : GoString) (lo hi : Nat) (ha : 0x80 ≤ a.val)
    (hl : leadInfo a.val = some (2, lo, hi)) :
    DecodeRuneInString (a :: b :: t) =
      if b.val < lo ∨ hi < b.val then (RuneError, 1)
      else ((a.val % 32) * 64 + b.val % 64, 2) := by
  have ha1 : ¬ a.val < RuneSelf := by simp [RuneSelf]; omega
  simp only [DecodeRuneInString, ha1, hl, if_false, List.length_cons]
  rw [if_neg (by omega)]
  simp

theorem decode_three (a b c : Byte) (t : GoString) (lo hi : Nat) (ha : 0x80 ≤ a.val)
    (hl : leadInfo a.val = some (3, lo, hi)) :
    DecodeRuneInString (a :: b :: c :: t) =
      if b.val < lo ∨ hi < b.val then (RuneError, 1)
      else if c.val < 0x80 ∨ 0xBF < c.val then (RuneError, 1)
      else ((a.val % 16) * 4096 + (b.val % 64) * 64 + c.val % 64, 3) := by
  have ha1 : ¬ a.val < RuneSelf := by simp [RuneSelf]; omega
  simp only [DecodeRuneInString, ha1, hl, if_false, List.length_cons]
  rw [if_neg (by omega)]
  simp

theorem decode_four (a b c d : Byte) (t : GoString) (lo hi : Nat) (ha : 0x80 ≤ a.val)
    (hl : leadInfo a.val = some (4, lo, hi)) :
    DecodeRuneInString (a :: b :: c :: d :: t) =
      if b.val < lo ∨ hi < b.val then (RuneError, 1)
      else if c.val < 0x80 ∨ 0xBF < c.val then (RuneError, 1)
      else if d.val < 0x80 ∨ 0xBF < d.val then (RuneError, 1)
      else ((a.val % 8) * 262144 + (b.val % 64) * 4096 + (c.val % 64) * 64 + d.val % 64, 4) := by
  have ha1 : ¬ a.val < RuneSelf := by simp [RuneSelf]; omega
  simp only [DecodeRuneInString, ha1, hl, if_false, List.length_cons]
  rw [if_neg (by omega)]
  simp

theorem decode_short (a : Byte) (t : GoString) (sz lo hi : Nat) (ha : 0x80 ≤ a.val)
    (hl : leadInfo a.val = some (sz, lo, hi)) (hlen : t.length + 1 < sz) :
    DecodeRuneInString (a :: t) = (RuneError, 1) := by
  have ha1 : ¬ a.val < RuneSelf := by simp [RuneSelf]; omega
  simp only [DecodeRuneInString, ha1, hl, if_false, List.length_cons]
  rw [if_pos hlen]

theorem decode_invalid_lead (a : Byte) (t : GoString) (ha : 0x80 ≤ a.val)
    (hl : leadInfo a.val = none) :
    DecodeRuneInString (a :: t) = (RuneError, 1) := by
  have ha1 : ¬ a.val < RuneSelf := by simp [RuneSelf]; omega
  simp only [DecodeRuneInString, ha1, hl, if_false]

theorem encode_two (a b : Byte) (h1 : 0xC2 ≤ a.val) (h2 : a.val ≤ 0xDF)
    (h3 : 0x80 ≤ b.val) (h4 : b.val ≤ 0xBF) :
    EncodeRune ((a.val % 32) * 64 + b.val % 64) = [a, b] := by
  unfold EncodeRune
  rw [if_neg (by omega), if_pos (by omega)]
  rw [byte_ofNat a _ (by omega), byte_ofNat b _ (by omega)]

theorem encode_three (a b c : Byte) (h1 : 0xE0 ≤ a.val) (h2 : a.val ≤ 0xEF)
    (h3 : 0x80 ≤ b.val) (h4 : b.val ≤ 0xBF) (h5 : a.val = 0xE0 → 0xA0 ≤ b.val)
    (h6 : a.val = 0xED → b.val ≤ 0x9F) (h7 : 0x80 ≤ c.val) (h8 : c.val ≤ 0xBF) :
    EncodeRune ((a.val % 16) * 4096 + (b.val % 64) * 64 + c.val % 64) = [a, b, c] := by
  unfold EncodeRune
  rw [if_neg (by omega), if_neg (by omega), if_neg (by omega), if_pos (by omega)]
  rw [byte_ofNat a _ (by omega), byte_ofNat b _ (by omega), byte_ofNat c _ (by omega)]

theorem encode_four (a b c d : Byte) (h1 : 0xF0 ≤ a.val) (h2 : a.val ≤ 0xF4)
    (h3 : 0x80 ≤ b.val) (h4 : b.val ≤ 0xBF) (h5 : a.val = 0xF0 → 0x90 ≤ b.val)
    (h6 : a.val = 0xF4 → b.val ≤ 0x8F) (h7 : 0x80 ≤ c.val) (h8 : c.val ≤ 0xBF)
    (h9 : 0x80 ≤ d.val) (h10 : d.val ≤ 0xBF) :
    EncodeRune ((a.val % 8) * 262144 + (b.val % 64) * 4096 + (c.val % 64) * 64 + d.val % 64)
      = [a, b, c, d] := by
  unfold EncodeRune
  rw [if_neg (by omega), if_neg (by omega), if_neg (by omega), if_neg (by omega)]
  rw [byte_ofNat a _ (by omega), byte_ofNat b _ (by omega), byte_ofNat c _ (by omega),
    byte_ofNat d _ (by omega)]

theorem hexVal_hexDigit (n : Nat) (h : n < 16) : hexVal (hexDigit n) = some n := by
  interval_cases n <;> decide

theorem unquote_close (f : Nat) (rest : GoString) :
    unquoteLoop (f + 1) (0x22 :: rest) = some ([], rest) := by
  simp only [unquoteLoop]
  rw [if_pos (by decide)]

theorem unquote_plain (f : Nat) (c : Byte) (x : GoString) (h1 : 0x20 ≤ c.val)
    (h2 : c.val < 0x80) (h3 : c.val ≠ 0x22) (h4 : c.val ≠ 0x5C) :
    unquoteLoop (f + 1) (c :: x) = (unquoteLoop f x).map (fun p => (c :: p.1, p.2)) := by
  simp only [unquoteLoop, h3, h4, if_false]
  rw [if_neg (by omega), if_pos h2]

theorem unquote_multi (f : Nat) (c : Byte) (x : GoString) (h1 : 0x80 ≤ c.val) :
    unquoteLoop (f + 1) (c :: x) =
      (unquoteLoop f ((c :: x).drop (DecodeRuneInString (c :: x)).2)).map
        (fun p => (EncodeRune (DecodeRuneInString (c :: x)).1 ++ p.1, p.2)) := by
  simp only [unquoteLoop]
  rw [if_neg (by omega), if_neg (by omega), if_neg (by omega), if_neg (by omega)]

theorem unquote_escapeByte (f : Nat) (c : Byte) (x : GoString) (h1 : c.val < 0x80)
    (h2 : htmlSafe c = false) :
    unquoteLoop (f + 1) (escapeByte c ++ x) =
      (unquoteLoop f x).map (fun p => (c :: p.1, p.2)) := by
  unfold escapeByte
  split_ifs with e1 e2 e3 e4 e5 e6
  · rw [List.cons_append, List.cons_append, List.nil_append]
    simp only [unquoteLoop]
    rw [if_neg (by decide), if_pos (by decide)]
    rw [if_pos (by omega)]
  · have : c = 0x08 := Fin.ext e2
    subst this
    rw [List.cons_append, List.cons_append, List.nil_append]
    simp only [unquoteLoop]
    rw [if_neg (by decide), if_pos (by decide)]
    rw [if_neg (by decide), if_pos (by decide)]
  · have : c = 0x0C := Fin.ext e3
    subst this
    rw [List.cons_append, List.cons_append, List.nil_append]
    simp only [unquoteLoop]
    rw [if_neg (by decide), if_pos (by decide)]
    rw [if_neg (by decide), if_neg (by decide), if_pos (by decide)]
  · have : c = 0x0A := Fin.ext e4
    subst this
    rw [List.cons_append, List.cons_append, List.nil_append]
    simp only [unquoteLoop]
    rw [if_neg (by decide), if_pos (by decide)]
    rw [if_neg (by decide), if_neg (by decide), if_neg (by decide), if_pos (by decide)]
  · have : c = 0x0D := Fin.ext e5
    subst this
    rw [List.cons_append, List.cons_append, List.nil_append]
    simp only [unquoteLoop]
    rw [if_neg (by decide), if_pos (by decide)]
    rw [if_neg (by decide), if_neg (by decide), if_neg (by decide), if_neg (by decide),
      if_pos (by decide)]
  · have : c = 0x09 := Fin.ext e6
    subst this
    rw [List.cons_append, List.cons_append, List.nil_append]
    simp only [unquoteLoop]
    rw [if_neg (by decide), if_pos (by decide)]
    rw [if_neg (by decide), if_neg (by decide), if_neg (by decide), if_neg (by decide),
      if_neg (by decide), if_pos (by decide)]
  · have hg : getu4 ([0x30, 0x30, hexDigit (c.val / 16), hexDigit (c.val % 16)] ++ x)
        = some c.val := by
      simp only [getu4, List.cons_append, List.nil_append]
      rw [hexVal_hexDigit _ (by omega), hexVal_hexDigit _ (by omega)]
      have h0 : hexVal (0x30 : Byte) = some 0 := by decide
      rw [h0]
      simp only [Option.some.injEq]
      omega
    have hx : unquoteLoop (f + 1)
        ([0x5C, 0x75, 0x30, 0x30, hexDigit (c.val / 16), hexDigit (c.val % 16)] ++ x) =
        unquoteLoop (f + 1)
          (0x5C :: 0x75 :: ([0x30, 0x30, hexDigit (c.val / 16), hexDigit (c.val % 16)] ++ x)) :=
      rfl
    rw [hx]
    simp only [unquoteLoop]
    rw [if_neg (by decide), if_pos (by decide)]
    rw [if_neg (by decide), if_neg (by decide), if_neg (by decide), if_neg (by decide),
      if_neg (by decide), if_neg (by decide), if_pos (by decide)]
    rw [hg]
    simp only
    rw [if_neg (by omega)]
    have he : EncodeRune c.val = [c] := by
      unfold EncodeRune
      rw [if_pos (by omega), byte_ofNat c _ rfl]
    rw [he]
    rfl

/-- A valid multi-byte encoding at the head of a string: re-encoding the
decoded rune gives back exactly the bytes that were read, and the decoding
does not depend on what follows them. -/
theorem decode_valid (c : Byte) (t : GoString) (hc : 0x80 ≤ c.val)
    (hv : DecodeRuneInString (c :: t) ≠ (RuneError, 1)) :
    EncodeRune (DecodeRuneInString (c :: t)).1 = (c :: t).take (DecodeRuneInString (c :: t)).2 ∧
    (∀ t1, DecodeRuneInString ((c :: t).take (DecodeRuneInString (c :: t)).2 ++ t1)
      = DecodeRuneInString (c :: t)) ∧
    2 ≤ (DecodeRuneInString (c :: t)).2 ∧ (DecodeRuneInString (c :: t)).2 ≤ 4 ∧
    0x80 ≤ (DecodeRuneInString (c :: t)).1 := by
  rcases hl : leadInfo c.val with _ | ⟨sz, lo, hi⟩
  · exact absurd (decode_invalid_lead c t hc hl) hv
  have hsz : sz = 2 ∨ sz = 3 ∨ sz = 4 := leadInfo_size _ _ _ _ hl
  have hr := leadInfo_range _ _ _ _ hl
  rcases hsz with rfl | rfl | rfl
  · rcases t with _ | ⟨b, t2⟩
    · exact absurd (decode_short c [] _ _ _ hc hl (by simp)) hv
    rw [decode_two c b t2 lo hi hc hl] at hv ⊢
    by_cases hb : b.val < lo ∨ hi < b.val
    · rw [if_pos hb] at hv; exact absurd rfl hv
    rw [if_neg hb]
    simp only [List.take_succ_cons, List.take_zero, List.cons_append, List.nil_append]
    refine ⟨encode_two c b (by omega) (by omega) (by omega) (by omega), ?_, le_refl _,
      by omega, by omega⟩
    intro t1
    rw [decode_two c b t1 lo hi hc hl, if_neg hb]
  · rcases t with _ | ⟨b, _ | ⟨d, t3⟩⟩
    · exact absurd (decode_short c [] _ _ _ hc hl (by simp)) hv
    · exact absurd (decode_short c [b] _ _ _ hc hl (by simp)) hv
    rw [decode_three c b d t3 lo hi hc hl] at hv ⊢
    by_cases hb : b.val < lo ∨ hi < b.val
    · rw [if_pos hb] at hv; exact absurd rfl hv
    rw [if_neg hb] at hv ⊢
    by_cases hd : d.val < 0x80 ∨ 0xBF < d.val
    · rw [if_pos hd] at hv; exact absurd rfl hv
    rw [if_neg hd]
    simp only [List.take_succ_cons, List.take_zero, List.cons_append, List.nil_append]
    refine ⟨encode_three c b d (by omega) (by omega) (by omega) (by omega) (by omega)
      (by omega) (by omega) (by omega), ?_, by omega, by omega, by omega⟩
    intro t1
    rw [decode_three c b d t1 lo hi hc hl, if_neg hb, if_neg hd]
  · rcases t with _ | ⟨b, _ | ⟨d, _ | ⟨e, t4⟩⟩⟩
    · exact absurd (decode_short c [] _ _ _ hc hl (by simp)) hv
    · exact absurd (decode_short c [b] _ _ _ hc hl (by simp)) hv
    · exact absurd (decode_short c [b, d] _ _ _ hc hl (by simp)) hv
    rw [decode_four c b d e t4 lo hi hc hl] at hv ⊢
    by_cases hb : b.val < lo ∨ hi < b.val
    · rw [if_pos hb] at hv; exact absurd rfl hv
    rw [if_neg hb] at hv ⊢
    by_cases hd : d.val < 0x80 ∨ 0xBF < d.val
    · rw [if_pos hd] at hv; exact absurd rfl hv
    rw [if_neg hd] at hv ⊢
    by_cases he : e.val < 0x80 ∨ 0xBF < e.val
    · rw [if_pos he] at hv; exact absurd rfl hv
    rw [if_neg he]
    simp only [List.take_succ_cons, List.take_zero, List.cons_append, List.nil_append]
    refine ⟨encode_four c b d e (by omega) (by omega) (by omega) (by omega) (by omega)
      (by omega) (by omega) (by omega) (by omega) (by omega), ?_, by omega, by omega, by omega⟩
    intro t1
    rw [decode_four c b d e t1 lo hi hc hl, if_neg hb, if_neg hd, if_neg he]

theorem unquote_u202x (f : Nat) (r : Nat) (x : GoString) (hr : r = 0x2028 ∨ r = 0x2029) :
    unquoteLoop (f + 1) ([0x5C, 0x75, 0x32, 0x30, 0x32, hexDigit (r % 16)] ++ x) =
      (unquoteLoop f x).map (fun p => (EncodeRune r ++ p.1, p.2)) := by
  have hg : getu4 ([0x32, 0x30, 0x32, hexDigit (r % 16)] ++ x) = some r := by
    rcases hr with rfl | rfl <;> rfl
  have hx : unquoteLoop (f + 1) ([0x5C, 0x75, 0x32, 0x30, 0x32, hexDigit (r % 16)] ++ x) =
      unquoteLoop (f + 1) (0x5C :: 0x75 :: ([0x32, 0x30, 0x32, hexDigit (r % 16)] ++ x)) := rfl
  rw [hx]
  simp only [unquoteLoop]
  rw [if_neg (by decide), if_pos (by decide)]
  rw [if_neg (by decide), if_neg (by decide), if_neg (by decide), if_neg (by decide),
    if_neg (by decide), if_neg (by decide), if_pos (by decide)]
  rw [hg]
  simp only
  rw [if_neg (by omega)]
  rfl

theorem unquote_ufffd (f : Nat) (x : GoString) :
    unquoteLoop (f + 1) ([0x5C, 0x75, 0x66, 0x66, 0x66, 0x64] ++ x) =
      (unquoteLoop f x).map (fun p => ([0xEF, 0xBF, 0xBD] ++ p.1, p.2)) := by
  have hg : getu4 ([0x66, 0x66, 0x66, 0x64] ++ x) = some 0xFFFD := rfl
  have hx : unquoteLoop (f + 1) ([0x5C, 0x75, 0x66, 0x66, 0x66, 0x64] ++ x) =
      unquoteLoop (f + 1) (0x5C :: 0x75 :: ([0x66, 0x66, 0x66, 0x64] ++ x)) := rfl
  rw [hx]
  simp only [unquoteLoop]
  rw [if_neg (by decide), if_pos (by decide)]
  rw [if_neg (by decide), if_neg (by decide), if_neg (by decide), if_neg (by decide),
    if_neg (by decide), if_neg (by decide), if_pos (by decide)]
  rw [hg]
  simp only
  rw [if_neg (by omega)]
  rfl

theorem appendStringLoop_nil (k : Nat) : appendStringLoop k [] = [] := by
  cases k <;> rfl

theorem coerceLoop_nil (k : Nat) : coerceLoop k [] = [] := by
  cases k <;> rfl

theorem escapeByte_length_pos (c : Byte) : 1 ≤ (escapeByte c).length := by
  unfold escapeByte
  split_ifs <;> simp

/-- Unquoting what `appendString` wrote for a string gives the string coerced
to valid UTF-8 and stops right after the closing quote. -/
theorem unquote_appendString (k1 : Nat) :
    ∀ (k2 fuel : Nat) (s rest : GoString), s.length ≤ k1 → s.length ≤ k2 →
      (appendStringLoop k2 s).length + 1 ≤ fuel →
      unquoteLoop fuel (appendStringLoop k2 s ++ 0x22 :: rest) = some (coerceLoop k1 s, rest) := by
  induction k1 with
  | zero =>
    intro k2 fuel s rest h1 h2 hf
    have hs : s = [] := List.length_eq_zero.mp (by omega)
    subst hs
    rw [appendStringLoop_nil] at hf ⊢
    obtain ⟨f, rfl⟩ : ∃ f, fuel = f + 1 := ⟨fuel - 1, by simp at hf; omega⟩
    exact unquote_close f rest
  | succ k1 ih =>
    intro k2 fuel s rest h1 h2 hf
    rcases s with _ | ⟨c, t⟩
    · rw [appendStringLoop_nil] at hf ⊢
      obtain ⟨f, rfl⟩ : ∃ f, fuel = f + 1 := ⟨fuel - 1, by simp at hf; omega⟩
      exact unquote_close f rest
    obtain ⟨k2, rfl⟩ : ∃ k, k2 = k + 1 := ⟨k2 - 1, by simp at h2; omega⟩
    obtain ⟨f, rfl⟩ : ∃ f, fuel = f + 1 := ⟨fuel - 1, by omega⟩
    simp only [List.length_cons] at h1 h2
    simp only [coerceLoop]
    by_cases hc : c.val < 0x80
    · -- a single-byte rune
      have hd := decode_ascii c t hc
      have hdec : DecodeRuneInString (c :: t) ≠ (RuneError, 1) := by
        rw [hd]; intro h; simp [RuneError] at h; omega
      rw [if_neg hdec, hd]
      simp only [List.drop_succ_cons, List.drop_zero, List.take_succ_cons, List.take_zero]
      simp only [appendStringLoop] at hf ⊢
      rw [if_pos hc] at hf ⊢
      by_cases hsafe : htmlSafe c = true
      · rw [if_pos hsafe] at hf ⊢
        have hb : 0x20 ≤ c.val ∧ c.val ≠ 0x22 ∧ c.val ≠ 0x5C := by
          simp [htmlSafe] at hsafe
          omega
        rw [List.cons_append, unquote_plain f c _ hb.1 hc hb.2.1 hb.2.2]
        rw [ih k2 f t rest (by omega) (by omega) (by simp at hf; omega)]
        rfl
      · rw [if_neg hsafe] at hf ⊢
        simp only [Bool.not_eq_true] at hsafe
        have hl := escapeByte_length_pos c
        rw [List.append_assoc, unquote_escapeByte f c _ hc hsafe]
        rw [ih k2 f t rest (by omega) (by omega)
          (by rw [List.length_append] at hf; omega)]
        rfl
    · have hc1 : 0x80 ≤ c.val := by omega
      simp only [appendStringLoop] at hf ⊢
      rw [if_neg hc] at hf ⊢
      by_cases hdec : DecodeRuneInString (c :: t) = (RuneError, 1)
      · -- a byte that starts no valid encoding
        rw [if_pos hdec]
        have he : (DecodeRuneInString (c :: t)).1 = RuneError ∧
            (DecodeRuneInString (c :: t)).2 = 1 := by rw [hdec]; exact ⟨rfl, rfl⟩
        rw [if_pos he] at hf ⊢
        rw [List.append_assoc, unquote_ufffd f]
        rw [ih k2 f t rest (by omega) (by omega)
          (by rw [List.length_append] at hf; simp at hf; omega)]
        rfl
      · -- a multi-byte rune
        rw [if_neg hdec]
        obtain ⟨henc, happ, hn2, hn4, hr⟩ := decode_valid c t hc1 hdec
        have hnle := decodeRune_size_le (c :: t)
        simp only [List.length_cons] at hnle
        have hne : ¬ ((DecodeRuneInString (c :: t)).1 = RuneError ∧
            (DecodeRuneInString (c :: t)).2 = 1) := by
          intro h; omega
        have hdrop : ((c :: t).drop (DecodeRuneInString (c :: t)).2).length + 2
            ≤ t.length + 1 := by
          rw [List.length_drop]; simp only [List.length_cons]; omega
        rw [if_neg hne] at hf ⊢
        by_cases h28 : (DecodeRuneInString (c :: t)).1 = 0x2028 ∨
            (DecodeRuneInString (c :: t)).1 = 0x2029
        · rw [if_pos h28] at hf ⊢
          rw [List.append_assoc, unquote_u202x f _ _ h28]
          rw [ih k2 f _ rest (by omega) (by omega)
            (by rw [List.length_append] at hf; simp at hf; omega)]
          simp only [Option.map_some', henc]
        · rw [if_neg h28] at hf ⊢
          have htake : (c :: t).take (DecodeRuneInString (c :: t)).2 =
              c :: t.take ((DecodeRuneInString (c :: t)).2 - 1) := by
            obtain ⟨m, hm⟩ : ∃ m, (DecodeRuneInString (c :: t)).2 = m + 1 :=
              ⟨(DecodeRuneInString (c :: t)).2 - 1, by omega⟩
            rw [hm]; simp
          have hlen : ((c :: t).take (DecodeRuneInString (c :: t)).2).length =
              (DecodeRuneInString (c :: t)).2 := by
            rw [List.length_take]; simp only [List.length_cons]; omega
          have hfull := happ (appendStringLoop k2
            ((c :: t).drop (DecodeRuneInString (c :: t)).2) ++ 0x22 :: rest)
          rw [List.append_assoc]
          generalize hX : appendStringLoop k2 ((c :: t).drop (DecodeRuneInString (c :: t)).2)
            ++ 0x22 :: rest = X at hfull ⊢
          have hcons : (c :: t).take (DecodeRuneInString (c :: t)).2 ++ X =
              c :: (t.take ((DecodeRuneInString (c :: t)).2 - 1) ++ X) := by
            rw [htake]; rfl
          rw [hcons] at hfull ⊢
          rw [unquote_multi f c _ hc1, hfull, ← hcons]
          rw [List.drop_left' hlen, ← hX]
          rw [ih k2 f _ rest (by omega) (by omega)
            (by rw [List.length_append] at hf; omega)]
          simp only [Option.map_some', henc]

theorem coerceLoop_valid (k : Nat) :
    ∀ s : GoString, s.length ≤ k → validLoop k s = true → coerceLoop k s = s := by
  induction k with
  | zero =>
    intro s h hv
    have hs : s = [] := List.length_eq_zero.mp (by omega)
    subst hs; rfl
  | succ k ih =>
    intro s h hv
    rcases s with _ | ⟨c, t⟩
    · rfl
    simp only [validLoop] at hv
    simp only [coerceLoop]
    by_cases hdec : DecodeRuneInString (c :: t) = (RuneError, 1)
    · simp [hdec] at hv
    rw [if_neg hdec] at hv ⊢
    have hpos := decodeRune_size_pos (c :: t) (by simp)
    rw [ih _ (by rw [List.length_drop]; simp only [List.length_cons] at h ⊢; omega) hv]
    exact List.take_append_drop _ _

theorem coerceUTF8_valid (s : GoString) (h : ValidString s = true) : coerceUTF8 s = s :=
  coerceLoop_valid s.length s le_rfl h

theorem parseString_marshal (s rest : GoString) :
    parseString (appendStringLoop s.length s ++ 0x22 :: rest) = some (coerceUTF8 s, rest) := by
  unfold parseString
  exact unquote_appendString s.length s.length _ s rest le_rfl le_rfl
    (by simp [List.length_append])

theorem skipSpace_cons (c : Byte) (rest : GoString) (h : isJSONSpace c = false) :
    skipSpace (c :: rest) = c :: rest := by
  simp [skipSpace, h]

theorem parseValue_string (f depth : Nat) (x s rest : GoString)
    (h : parseString x = some (s, rest)) :
    parseValue (f + 1) depth (0x22 :: x) = some (JSON.string s, rest) := by
  simp only [parseValue]
  rw [skipSpace_cons _ _ (by decide)]
  simp only
  rw [if_neg (by decide), if_neg (by decide), if_pos (by decide), h]
  rfl

theorem parseValue_object (f depth : Nat) (x : GoString) (hd : depth + 1 ≤ maxNestingDepth) :
    parseValue (f + 1) depth (0x7B :: 0x22 :: x) =
      (parseMembers f (depth + 1) (0x22 :: x)).map (fun p => (JSON.object p.1, p.2)) := by
  simp only [parseValue]
  rw [skipSpace_cons _ _ (by decide)]
  simp only
  rw [if_pos (by decide), if_neg (by omega), skipSpace_cons _ _ (by decide)]
  simp only
  rw [if_neg (by decide)]

theorem parseMembers_last (f depth : Nat) (x key r rest : GoString) (v : JSON)
    (hk : parseString x = some (key, 0x3A :: r))
    (hv : parseValue f depth r = some (v, 0x7D :: rest)) :
    parseMembers (f + 1) depth (0x22 :: x) = some ([(key, v)], rest) := by
  simp only [parseMembers]
  rw [skipSpace_cons _ _ (by decide)]
  simp only
  rw [if_pos (by decide), hk]
  simp only
  rw [skipSpace_cons _ _ (by decide)]
  simp only
  rw [if_pos (by decide), hv]
  simp only
  rw [skipSpace_cons _ _ (by decide)]
  simp only
  rw [if_pos (by decide)]

theorem parseMembers_more (f depth : Nat) (x key r rest : GoString) (v : JSON)
    (hk : parseString x = some (key, 0x3A :: r))
    (hv : parseValue f depth r = some (v, 0x2C :: rest)) :
    parseMembers (f + 1) depth (0x22 :: x) =
      (parseMembers f depth rest).map (fun p => ((key, v) :: p.1, p.2)) := by
  simp only [parseMembers]
  rw [skipSpace_cons _ _ (by decide)]
  simp only
  rw [if_pos (by decide), hk]
  simp only
  rw [skipSpace_cons _ _ (by decide)]
  simp only
  rw [if_pos (by decide), hv]
  simp only
  rw [skipSpace_cons _ _ (by decide)]
  simp only
  rw [if_neg (by decide), if_pos (by decide)]

theorem marshalContent_eq (c : Content) :
    MarshalContent c =
      0x7B :: 0x22 :: (appendStringLoop nameHeader.length nameHeader ++ 0x22 :: 0x3A :: 0x22 ::
        (appendStringLoop c.Header.length c.Header ++ 0x22 :: 0x2C :: 0x22 ::
          (appendStringLoop nameData.length nameData ++ 0x22 :: 0x3A :: 0x22 ::
            (appendStringLoop c.Data.length c.Data ++ 0x22 :: [0x7D])))) := by
  have h1 : appendStringLoop nameHeader.length nameHeader = nameHeader := by decide
  have h2 : appendStringLoop nameData.length nameData = nameData := by decide
  rw [h1, h2]
  simp [MarshalContent, marshalString]

/-- Parsing the output of `MarshalContent` yields the object with the two
members, their strings coerced to valid UTF-8, and nothing is left over. -/
theorem parseValue_marshalContent (f : Nat) (c : Content) :
    parseValue (f + 4) 0 (MarshalContent c) =
      some (JSON.object [(nameHeader, JSON.string (coerceUTF8 c.Header)),
        (nameData, JSON.string (coerceUTF8 c.Data))], []) := by
  have hH : coerceUTF8 nameHeader = nameHeader := by decide
  have hD : coerceUTF8 nameData = nameData := by decide
  have pH := parseString_marshal nameHeader
  have pD := parseString_marshal nameData
  rw [hH] at pH
  rw [hD] at pD
  rw [marshalContent_eq]
  rw [parseValue_object _ _ _ (by decide)]
  rw [parseMembers_more (f + 2) 1 _ nameHeader _ _ (JSON.string (coerceUTF8 c.Header))
    (pH _) (parseValue_string _ _ _ _ _ (parseString_marshal c.Header _))]
  rw [parseMembers_last (f + 1) 1 _ nameData _ _ (JSON.string (coerceUTF8 c.Data))
    (pD _) (parseValue_string _ _ _ _ _ (parseString_marshal c.Data _))]
  rfl

theorem marshalContent_length (c : Content) : 3 ≤ (MarshalContent c).length := by
  rw [marshalContent_eq]
  simp only [List.length_cons, List.length_append]
  omega

/-- Unmarshalling what `MarshalContent` wrote always succeeds and yields the
content with both strings coerced to valid UTF-8. -/
theorem unmarshal_marshal (c c0 : Content) :
    UnmarshalContent (MarshalContent c) c0 =
      (⟨coerceUTF8 c.Header, coerceUTF8 c.Data⟩, none) := by
  have hlen := marshalContent_length c
  obtain ⟨f, hf⟩ : ∃ f, (MarshalContent c).length + 1 = f + 4 :=
    ⟨(MarshalContent c).length - 3, by omega⟩
  unfold UnmarshalContent parseJSON
  rw [hf, parseValue_marshalContent f c]
  simp only [skipSpace, if_true, valueContent, objectContent]
  have k1 : keyMatches nameHeader nameHeader = true := by decide
  have k2 : keyMatches nameHeader nameData = false := by decide
  have k3 : keyMatches nameData nameData = true := by decide
  simp [k1, k2, k3, storeString, saveError]

/-! ### The repository -/

/-- Counterexample to C8 as stated: a header holding the single byte `0xFF`
is serialized as the escape of U+FFFD, and deserializing yields the three
bytes of U+FFFD, not the original header. -/
theorem content_roundtrip_counterexample :
    Content.Scan ⟨[], []⟩ (DriverValue.bytes (MarshalContent ⟨[0xFF], str "d"⟩)) =
      some (⟨[0xEF, 0xBF, 0xBD], str "d"⟩, none) ∧
    (⟨[0xEF, 0xBF, 0xBD], str "d"⟩ : Content) ≠ ⟨[0xFF], str "d"⟩ := by
  decide

/-- C8 (as amended): for every content `c`, deserializing with `Content.Scan`
the bytes `json.Marshal` produced for `c` succeeds, without error, and yields
`c` with header and data coerced to valid UTF-8 (every byte that is not part
of a valid encoding replaced by U+FFFD); the result is identical to `c`
whenever header and data are valid UTF-8. -/
theorem content_roundtrip (c c0 : Content) :
    Content.Scan c0 (DriverValue.bytes (MarshalContent c)) =
      some (⟨coerceUTF8 c.Header, coerceUTF8 c.Data⟩, none) ∧
    (ValidString c.Header = true → ValidString c.Data = true →
      Content.Scan c0 (DriverValue.bytes (MarshalContent c)) = some (c, none)) := by
  have h : Content.Scan c0 (DriverValue.bytes (MarshalContent c)) =
      some (⟨coerceUTF8 c.Header, coerceUTF8 c.Data⟩, none) := by
    simp only [Content.Scan, unmarshal_marshal]
  refine ⟨h, ?_⟩
  intro hh hd
  rw [h, coerceUTF8_valid _ hh, coerceUTF8_valid _ hd]

/-- Witness for C8: the content of the repository tests. -/
theorem content_roundtrip_witness :
    Content.Scan ⟨[], []⟩ (DriverValue.bytes (MarshalContent ⟨str "header", str "data"⟩)) =
      some (⟨str "header", str "data"⟩, none) :=
  (content_roundtrip ⟨str "header", str "data"⟩ ⟨[], []⟩).2 (by decide) (by decide)

theorem tableDB_prepare_known (st : Store) :
    tableDB.Prepare selectByIdQuery st = (none, st) ∧
    tableDB.Prepare insertQuery st = (none, st) ∧
    tableDB.Prepare updateQuery st = (none, st) ∧
    tableDB.Prepare selectAllQuery st = (none, st) ∧
    tableDB.Prepare deleteQuery st = (none, st) := by
  simp [tableDB]

theorem tableDB_insert (st : Store) (title content signee : GoString) :
    tableDB.Exec insertQuery
      [DriverValue.string title, DriverValue.bytes content, DriverValue.string signee] st =
      (.ok ⟨(st.nextId, none), (1, none)⟩,
        ⟨st.rows ++ [⟨st.nextId, title, content, signee⟩], st.nextId + 1⟩) := by
  simp [tableDB, textArg]

theorem tableDB_selectById (st : Store) (id : Int) :
    tableDB.Query selectByIdQuery [DriverValue.int id] st =
      (.ok ((st.rows.filter (fun r => r.id = id)).map Row.values), st) := by
  simp [tableDB]

theorem scanDocument_values (r : Row) (c : Content) (d0 : Document)
    (h : UnmarshalContent r.content d0.Content = (c, none)) :
    scanDocument r.values d0 = some (⟨r.id, r.title, c, r.signee⟩, none) := by
  simp [scanDocument, Row.values, scanInt64, scanString, Content.Scan, h]

/-- What repository `Create` does on the table store. -/
theorem create_tableDB (st : Store) (d : Document) :
    documentRepository.Create tableDB d st =
      ((some { d with ID := st.nextId }, none),
        ⟨st.rows ++ [⟨st.nextId, d.Title, MarshalContent d.Content, d.Signee⟩],
          st.nextId + 1⟩) := by
  unfold documentRepository.Create
  rw [(tableDB_prepare_known st).2.1]
  simp only [tableDB_insert]

/-- Repository `Create` over any driver: a success returns the input with
the identifier replaced. -/
theorem create_returns_input {σ : Type} (db : SqlDB σ) (d d1 : Document) (s s1 : σ)
    (h : documentRepository.Create db d s = ((some d1, none), s1)) :
    d1 = { d with ID := d1.ID } := by
  unfold documentRepository.Create at h
  rcases hp : db.Prepare insertQuery s with ⟨_ | e, s2⟩
  · rw [hp] at h
    simp only at h
    rcases he : db.Exec insertQuery
      [DriverValue.string d.Title, DriverValue.bytes (MarshalContent d.Content),
        DriverValue.string d.Signee] s2 with ⟨_ | r, s3⟩
    · rw [he] at h; simp at h
    · rw [he] at h
      simp only at h
      rcases hl : r.LastInsertId with ⟨id, _ | e⟩
      · rw [hl] at h
        simp only [Prod.mk.injEq, Option.some.injEq, and_true] at h
        rw [← h.1]
      · rw [hl] at h; simp at h
  · rw [hp] at h; simp at h

theorem filter_fresh_id (rows : List Row) (r : Row) (h : ∀ x ∈ rows, x.id < r.id) :
    (rows ++ [r]).filter (fun x => x.id = r.id) = [r] := by
  rw [List.filter_append]
  have h1 : rows.filter (fun x => decide (x.id = r.id)) = [] := by
    rw [List.filter_eq_nil_iff]
    intro x hx
    have := h x hx
    simp only [decide_eq_true_eq]
    omega
  rw [h1]
  simp

/-- What repository `Get` does on the table store right after a `Create`. -/
theorem get_after_create_tableDB (st : Store) (d : Document) (hwf : st.WellFormed) :
    documentRepository.Get tableDB st.nextId (documentRepository.Create tableDB d st).2 =
      some ((some ⟨st.nextId, d.Title,
          ⟨coerceUTF8 d.Content.Header, coerceUTF8 d.Content.Data⟩, d.Signee⟩, none),
        (documentRepository.Create tableDB d st).2) := by
  rw [create_tableDB]
  unfold documentRepository.Get
  simp only [(tableDB_prepare_known _).1, tableDB_selectById]
  rw [filter_fresh_id st.rows ⟨st.nextId, d.Title, MarshalContent d.Content, d.Signee⟩ hwf.2]
  simp only [List.map_cons, List.map_nil]
  rw [scanDocument_values _ ⟨coerceUTF8 d.Content.Header, coerceUTF8 d.Content.Data⟩ _
    (unmarshal_marshal _ _)]

/-- C9: on every well-formed table store and for every document `d`,
repository `Create` succeeds and returns `d` with only the identifier
replaced by the store-assigned one, which is positive, is the identifier of
the inserted row and does not depend on `d.ID`; a `Get` of that identifier on
the resulting store succeeds and returns a document with that identifier and
`d`'s title and signee; the resulting store is again well formed. Over any
driver, a successful `Create` returns its input with the identifier
replaced. -/
theorem create_then_get (st : Store) (d : Document) (hwf : st.WellFormed) :
    documentRepository.Create tableDB d st =
      ((some { d with ID := st.nextId }, none),
        ⟨st.rows ++ [⟨st.nextId, d.Title, MarshalContent d.Content, d.Signee⟩],
          st.nextId + 1⟩) ∧
    0 < st.nextId ∧
    (∃ c, documentRepository.Get tableDB st.nextId (documentRepository.Create tableDB d st).2 =
      some ((some ⟨st.nextId, d.Title, c, d.Signee⟩, none),
        (documentRepository.Create tableDB d st).2)) ∧
    (documentRepository.Create tableDB d st).2.WellFormed ∧
    (∀ (σ : Type) (db : SqlDB σ) (d1 : Document) (s s1 : σ),
      documentRepository.Create db d s = ((some d1, none), s1) →
      d1 = { d with ID := d1.ID }) := by
  refine ⟨create_tableDB st d, hwf.1, ⟨_, get_after_create_tableDB st d hwf⟩, ?_, ?_⟩
  · rw [create_tableDB]
    refine ⟨by have := hwf.1; simp only; omega, ?_⟩
    intro r hr
    simp only [List.mem_append, List.mem_singleton] at hr
    rcases hr with hr | rfl
    · have := hwf.2 r hr; simp only; omega
    · simp only; omega
  · intro σ db d1 s s1 h
    exact create_returns_input db d d1 s s1 h

theorem emptyStore_wellFormed : Store.WellFormed ⟨[], 1⟩ := by
  refine ⟨by decide, ?_⟩
  intro r hr
  simp at hr

/-- Witness for C9: the first document created in an empty store gets
identifier 1 and is read back. -/
theorem create_then_get_witness :
    documentRepository.Create tableDB ⟨77, str "t", ⟨str "h", str "d"⟩, str "s"⟩ ⟨[], 1⟩ =
      ((some ⟨1, str "t", ⟨str "h", str "d"⟩, str "s"⟩, none),
        ⟨[⟨1, str "t", str "\x7b\"header\":\"h\",\"data\":\"d\"\x7d", str "s"⟩], 2⟩) ∧
    documentRepository.Get tableDB 1
        ⟨[⟨1, str "t", str "\x7b\"header\":\"h\",\"data\":\"d\"\x7d", str "s"⟩], 2⟩ =
      some ((some ⟨1, str "t", ⟨str "h", str "d"⟩, str "s"⟩, none),
        ⟨[⟨1, str "t", str "\x7b\"header\":\"h\",\"data\":\"d\"\x7d", str "s"⟩], 2⟩) :=
  ⟨(create_then_get ⟨[], 1⟩ ⟨77, str "t", ⟨str "h", str "d"⟩, str "s"⟩
      emptyStore_wellFormed).1.trans (by decide),
    by decide⟩

/-- Repository `Get` on the table store reports the not-found sentinel when
no row has the identifier. -/
theorem get_missing_tableDB (st : Store) (id : Int) (h : ∀ r ∈ st.rows, r.id ≠ id) :
    documentRepository.Get tableDB id st = some ((none, some GoError.ErrNoRows), st) := by
  unfold documentRepository.Get
  simp only [(tableDB_prepare_known _).1, tableDB_selectById]
  have h1 : st.rows.filter (fun r => decide (r.id = id)) = [] := by
    rw [List.filter_eq_nil_iff]
    intro x hx
    simp only [decide_eq_true_eq]
    exact h x hx
  rw [h1]
  rfl

/-! ### Further properties of the validator, the service and the handlers -/

/-- C17: `Validate` is idempotent: validating the document a first `Validate`
left behind returns the same error (or success) and leaves that document
unchanged. -/
theorem validate_idempotent (d : Document) :
    d.Validate.1.Validate.2 = d.Validate.2 ∧ d.Validate.1.Validate.1 = d.Validate.1 := by
  constructor
  · rw [validate_snd d.Validate.1, validate_snd d, validate_fst d]
    simp only [trimSpace_idempotent]
  · rw [validate_fst d.Validate.1, validate_fst d]
    simp only [trimSpace_idempotent]

/-- C12: for a document whose trimmed title and signee are both non-empty,
service `Create` makes exactly one repository call, `Create` on the document
with title and signee trimmed and every other field as given, and returns
that call's result pair as it is: the document on success, the repository's
own error on failure. -/
theorem service_create_delegates {σ : Type} (repo : documentRepositoryInterface σ)
    (d : Document) (w : RepoWorld σ)
    (ht : TrimSpace d.Title ≠ []) (hs : TrimSpace d.Signee ≠ []) :
    documentService.Create repo d w =
      ((repo.Create { d with Title := TrimSpace d.Title, Signee := TrimSpace d.Signee }
          w.state).1,
        ⟨(repo.Create { d with Title := TrimSpace d.Title, Signee := TrimSpace d.Signee }
          w.state).2,
          w.calls ++ [RepoCall.Create
            { d with Title := TrimSpace d.Title, Signee := TrimSpace d.Signee }]⟩) := by
  have h1 := validate_fst d
  have h2 := validate_snd d
  rw [if_neg ht, if_neg hs] at h2
  unfold documentService.Create
  rcases hv : d.Validate with ⟨d1, e⟩
  rw [hv] at h1 h2
  simp only at h1 h2
  subst h1 h2
  rfl

/-- Witness for C12: the repository answers a padded document with a
duplicate-entry driver error, which the service hands on as it is. -/
theorem service_create_delegates_witness :
    documentService.Create
        (dBMock (none, none)
          (none, some (GoError.other 1062 "Duplicate entry for key title"))
          (none, none) none (none, none))
        ⟨0, str " title ", ⟨[], []⟩, str "signee\n"⟩ ⟨(), []⟩ =
      ((none, some (GoError.other 1062 "Duplicate entry for key title")),
        ⟨(), [RepoCall.Create ⟨0, str "title", ⟨[], []⟩, str "signee"⟩]⟩) :=
  (service_create_delegates
    (dBMock (none, none)
      (none, some (GoError.other 1062 "Duplicate entry for key title"))
      (none, none) none (none, none))
    ⟨0, str " title ", ⟨[], []⟩, str "signee\n"⟩ ⟨(), []⟩ (by decide) (by decide)).trans
    (by decide)

/-- C13: for an update request whose body decodes to `d` and whose path
identifier parses to `p`, the update handler makes exactly one service call,
`Update` on the document with identifier `p` and the title, content and
signee of `d`, whatever identifier the body carried. -/
theorem update_handler_path_id {τ : Type} (svc : documentServiceInterface τ) (r : Request)
    (w : ServiceWorld τ) (d : Document) (p : Int)
    (hd : DecodeDocument r.Body zeroDocument = (d, none))
    (hp : ParseInt (muxVar r "id") = (p, none)) :
    (UpdateHandler svc r w).2 =
      ⟨(svc.Update ⟨p, d.Title, d.Content, d.Signee⟩ w.state).2,
        w.calls ++ [ServiceOp.Update ⟨p, d.Title, d.Content, d.Signee⟩]⟩ := by
  unfold UpdateHandler
  rw [hd]
  simp only [hp]
  rcases hs : svc.Update ⟨p, d.Title, d.Content, d.Signee⟩ w.state with ⟨⟨x, _ | e⟩, st⟩
  · rfl
  · simp only
    split_ifs <;> rfl

/-- Witness for C13: the body carries identifier 99, the path identifier 1;
the service is called with identifier 1. -/
theorem update_handler_path_id_witness :
    (UpdateHandler (serviceMock (none, none) (none, none) (none, none) none (none, none))
        ⟨str "\x7b\"id\": 99, \"title\": \"t\", \"content\": \x7b\"header\": \"h\"\x7d, \"signee\": \"s\"\x7d",
          [("id", str "1")]⟩ ⟨(), []⟩).2 =
      ⟨(), [ServiceOp.Update ⟨1, str "t", ⟨str "h", []⟩, str "s"⟩]⟩ :=
  update_handler_path_id _
    ⟨str "\x7b\"id\": 99, \"title\": \"t\", \"content\": \x7b\"header\": \"h\"\x7d, \"signee\": \"s\"\x7d",
      [("id", str "1")]⟩ ⟨(), []⟩ ⟨99, str "t", ⟨str "h", []⟩, str "s"⟩ 1 (by decide) (by decide)

theorem allSpace_append (a b : GoString) (ha : AllSpace a) (hb : AllSpace b) :
    AllSpace (a ++ b) := by
  induction ha with
  | nil => exact hb
  | cons u rest hu hsp hsz _ ih =>
    rw [List.append_assoc]
    exact AllSpace.cons u (rest ++ b) hu hsp hsz ih

/-- The bytes of a valid leading rune decode on their own to that rune. -/
theorem decode_take (s : GoString) (hs : s ≠ [])
    (hv : DecodeRuneInString s ≠ (RuneError, 1)) :
    DecodeRuneInString (s.take (DecodeRuneInString s).2) = DecodeRuneInString s := by
  rcases s with _ | ⟨c, t⟩
  · exact absurd rfl hs
  by_cases hc : c.val < 0x80
  · rw [decode_ascii c t hc]
    simp only [List.take_succ_cons, List.take_zero]
    exact decode_ascii c [] hc
  · have h := (decode_valid c t (by omega) hv).2.1 []
    rw [List.append_nil] at h
    exact h

theorem trimLeftLoop_split (k : Nat) (s : GoString) (hk : s.length ≤ k) :
    ∃ pre, s = pre ++ trimLeftLoop k s ∧ AllSpace pre := by
  induction k generalizing s with
  | zero =>
    have : s = [] := List.length_eq_zero.mp (by omega)
    subst this
    exact ⟨[], rfl, AllSpace.nil⟩
  | succ k ih =>
    rcases s with _ | ⟨c, t⟩
    · exact ⟨[], rfl, AllSpace.nil⟩
    simp only [trimLeftLoop]
    by_cases hsp : IsSpace (DecodeRuneInString (c :: t)).1 = true
    · rw [if_pos hsp]
      have hpos := decodeRune_size_pos (c :: t) (by simp)
      have hle := decodeRune_size_le (c :: t)
      have hv : DecodeRuneInString (c :: t) ≠ (RuneError, 1) := by
        intro h
        rw [h] at hsp
        exact absurd hsp (by decide)
      have hlen : ((c :: t).drop (DecodeRuneInString (c :: t)).2).length ≤ k := by
        rw [List.length_drop]; simp only [List.length_cons] at hk ⊢; omega
      obtain ⟨pre, hpre, hall⟩ := ih _ hlen
      refine ⟨(c :: t).take (DecodeRuneInString (c :: t)).2 ++ pre, ?_, ?_⟩
      · rw [List.append_assoc, ← hpre, List.take_append_drop]
      · have htake := decode_take (c :: t) (by simp) hv
        refine AllSpace.cons _ pre ?_ ?_ ?_ hall
        · intro h
          have := congrArg List.length h
          rw [List.length_take] at this
          simp only [List.length_cons, List.length_nil] at this hle
          omega
        · rw [htake]; exact hsp
        · rw [htake, List.length_take]
          simp only [List.length_cons] at hle ⊢
          omega
    · rw [if_neg hsp]
      exact ⟨[], rfl, AllSpace.nil⟩

theorem drop_last (s : GoString) (hs : 0 < s.length) :
    s.drop (s.length - 1) = [s.getD (s.length - 1) 0] := by
  have h : s.length - 1 < s.length := by omega
  rw [List.drop_eq_getElem_cons h]
  have h2 : s.length - 1 + 1 = s.length := by omega
  rw [h2, List.drop_length]
  simp [List.getD, List.getElem?_eq_getElem h]

/-- The bytes `DecodeLastRuneInString` reads for a white-space rune are a
complete encoding of it. -/
theorem decodeLast_chunk (s : GoString) (hs : s ≠ [])
    (hsp : IsSpace (DecodeLastRuneInString s).1 = true) :
    DecodeRuneInString (s.drop (s.length - (DecodeLastRuneInString s).2))
      = DecodeLastRuneInString s ∧
    (DecodeLastRuneInString s).2 ≤ s.length ∧ 1 ≤ (DecodeLastRuneInString s).2 := by
  have hlen : 0 < s.length := List.length_pos.mpr hs
  refine ⟨?_, decodeLastRune_size_le s, decodeLastRune_size_pos s hs⟩
  unfold DecodeLastRuneInString at hsp ⊢
  simp only at hsp ⊢
  rw [if_neg (by omega)] at hsp ⊢
  by_cases h1 : (s.getD (s.length - 1) 0).val < RuneSelf
  · rw [if_pos h1]
    have hd : s.drop (s.length - 1) = [s.getD (s.length - 1) 0] := drop_last s hlen
    simp only
    rw [hd]
    exact decode_ascii _ [] (by simpa [RuneSelf] using h1)
  · rw [if_neg h1] at hsp ⊢
    generalize (if (s.length : Int) - 4 < 0 then 0 else (s.length : Int) - 4) = lim at hsp ⊢
    generalize lastRuneScan s lim 5 ((s.length : Int) - 2) = sc at hsp ⊢
    have hst : 0 ≤ (if sc < 0 then 0 else sc) := by split_ifs <;> omega
    generalize (if sc < 0 then 0 else sc) = st at hst hsp ⊢
    by_cases h3 : st + ((DecodeRuneInString (s.drop st.toNat)).2 : Int) ≠ (s.length : Int)
    · rw [if_pos h3] at hsp
      exact absurd hsp (by decide)
    · rw [if_neg h3]
      simp only [ne_eq, not_not] at h3
      simp only
      have : s.length - (DecodeRuneInString (s.drop st.toNat)).2 = st.toNat := by omega
      rw [this]

theorem trimRightLoop_split (k : Nat) (s : GoString) (hk : s.length ≤ k) :
    ∃ post, s = trimRightLoop k s ++ post ∧ AllSpace post := by
  induction k generalizing s with
  | zero =>
    have : s = [] := List.length_eq_zero.mp (by omega)
    subst this
    exact ⟨[], rfl, AllSpace.nil⟩
  | succ k ih =>
    rcases s with _ | ⟨c, t⟩
    · exact ⟨[], rfl, AllSpace.nil⟩
    simp only [trimRightLoop]
    by_cases hsp : IsSpace (DecodeLastRuneInString (c :: t)).1 = true
    · rw [if_pos hsp]
      obtain ⟨hdec, hle, hpos⟩ := decodeLast_chunk (c :: t) (by simp) hsp
      have hlen : ((c :: t).take ((c :: t).length - (DecodeLastRuneInString (c :: t)).2)).length
          ≤ k := by
        rw [List.length_take]; simp only [List.length_cons] at hk ⊢; omega
      obtain ⟨post, hpost, hall⟩ := ih _ hlen
      refine ⟨post ++ (c :: t).drop ((c :: t).length - (DecodeLastRuneInString (c :: t)).2),
        ?_, ?_⟩
      · rw [← List.append_assoc, ← hpost, List.take_append_drop]
      · refine allSpace_append _ _ hall ?_
        have hu := AllSpace.cons
          ((c :: t).drop ((c :: t).length - (DecodeLastRuneInString (c :: t)).2)) [] ?_ ?_ ?_
          AllSpace.nil
        · rw [List.append_nil] at hu; exact hu
        · intro h
          have := congrArg List.length h
          rw [List.length_drop] at this
          simp only [List.length_nil] at this
          omega
        · rw [hdec]; exact hsp
        · rw [hdec, List.length_drop]; omega
    · rw [if_neg hsp]
      exact ⟨[], by simp, AllSpace.nil⟩

/-- `TrimSpace` removes white space only: the input is the result between a
prefix and a suffix that are made of white-space runes. -/
theorem trimSpace_split (s : GoString) :
    ∃ pre post, s = pre ++ TrimSpace s ++ post ∧ AllSpace pre ∧ AllSpace post := by
  obtain ⟨pre, hpre, hall⟩ := trimLeftLoop_split s.length s le_rfl
  have hL := trimLeftLoop_spec s.length s le_rfl
  obtain ⟨post, hpost, hallp⟩ := trimRightLoop_split s.length (trimLeftLoop s.length s) hL.2
  refine ⟨pre, post, ?_, hall, hallp⟩
  unfold TrimSpace
  rw [List.append_assoc, ← hpost, ← hpre]

/-- C11: when `Validate` succeeds, the document it leaves has the trimmed
title and the trimmed signee of `d` and exactly `d`'s identifier and content;
each of the two fields of `d` is the field left behind between a prefix and a
suffix made of white-space runes only; and success does not depend on the
identifier or the content. -/
theorem validate_frame (d : Document) (h : d.Validate.2 = none) :
    d.Validate.1.Title = TrimSpace d.Title ∧
    d.Validate.1.Signee = TrimSpace d.Signee ∧
    d.Validate.1.ID = d.ID ∧
    d.Validate.1.Content = d.Content ∧
    (∃ pre post, d.Title = pre ++ d.Validate.1.Title ++ post ∧ AllSpace pre ∧ AllSpace post) ∧
    (∃ pre post, d.Signee = pre ++ d.Validate.1.Signee ++ post ∧ AllSpace pre ∧ AllSpace post) ∧
    (∀ id c, ({ d with ID := id, Content := c } : Document).Validate.2 = none) := by
  rw [validate_fst]
  refine ⟨rfl, rfl, rfl, rfl, trimSpace_split _, trimSpace_split _, ?_⟩
  intro id c
  rw [validate_snd] at h ⊢
  exact h

/-- Witness for C11: a padded title and signee, an arbitrary identifier and
content. -/
theorem validate_frame_witness :
    (⟨-3, str "\t Title  ", ⟨[0xFF], str " d "⟩, str "signee\n"⟩ : Document).Validate.1.Title
      = str "Title" ∧
    (⟨-3, str "\t Title  ", ⟨[0xFF], str " d "⟩, str "signee\n"⟩ : Document).Validate.1.Signee
      = str "signee" ∧
    (⟨-3, str "\t Title  ", ⟨[0xFF], str " d "⟩, str "signee\n"⟩ : Document).Validate.1.ID
      = -3 ∧
    (⟨-3, str "\t Title  ", ⟨[0xFF], str " d "⟩, str "signee\n"⟩ : Document).Validate.1.Content
      = ⟨[0xFF], str " d "⟩ :=
  ⟨(validate_frame ⟨-3, str "\t Title  ", ⟨[0xFF], str " d "⟩, str "signee\n"⟩
      (by decide)).1.trans (by decide),
    (validate_frame ⟨-3, str "\t Title  ", ⟨[0xFF], str " d "⟩, str "signee\n"⟩
      (by decide)).2.1.trans (by decide),
    (validate_frame ⟨-3, str "\t Title  ", ⟨[0xFF], str " d "⟩, str "signee\n"⟩
      (by decide)).2.2.1,
    (validate_frame ⟨-3, str "\t Title  ", ⟨[0xFF], str " d "⟩, str "signee\n"⟩
      (by decide)).2.2.2.1⟩

theorem envelope_failure (code : Int) (e : GoError)
    (hc : code = 400 ∨ code = 404 ∨ code = 422 ∨ code = 500) :
    EnvelopeOK (JsonRespond false code (some e) Payload.nil) (some e) := by
  refine ⟨rfl, ⟨fun _ => hc, fun _ => rfl⟩, ⟨fun h => ?_, fun h => ?_⟩,
    fun _ => ⟨rfl, e, rfl, rfl⟩, fun h => ?_⟩
  · exact absurd h (by simp [JsonRespond])
  · exfalso
    simp only [JsonRespond] at h
    omega
  · exact absurd h (by simp [JsonRespond])

theorem envelope_success (code : Int) (data : Payload) (hc : code = 200 ∨ code = 201) :
    EnvelopeOK (JsonRespond true code none data) none := by
  refine ⟨rfl, ⟨fun h => ?_, fun h => ?_⟩, ⟨fun _ => hc, fun _ => rfl⟩, fun h => ?_,
    fun _ => ⟨rfl, rfl⟩⟩
  · exact absurd h (by simp [JsonRespond])
  · exfalso
    simp only [JsonRespond] at h
    omega
  · exact absurd h (by simp [JsonRespond])

/-- C14: for every service, request and state, the envelope each of the five
handlers writes satisfies the envelope invariant with respect to the error
that made the handler fail (the decoder's, the identifier parser's or the
service's), if any. -/
theorem handler_envelope {τ : Type} (svc : documentServiceInterface τ) (r : Request)
    (w : ServiceWorld τ) :
    EnvelopeOK (CreateHandler svc r w).1 (createFailure svc r w) ∧
    EnvelopeOK (UpdateHandler svc r w).1 (updateFailure svc r w) ∧
    EnvelopeOK (DeleteHandler svc r w).1 (deleteFailure svc r w) ∧
    EnvelopeOK (GetByIdHandler svc r w).1 (getByIdFailure svc r w) ∧
    EnvelopeOK (GetAllHandler svc r w).1 (getAllFailure svc w) := by
  refine ⟨?_, ?_, ?_, ?_, ?_⟩
  · unfold CreateHandler createFailure
    rcases DecodeDocument r.Body zeroDocument with ⟨d, _ | e⟩
    · simp only
      rcases svc.Create d w.state with ⟨⟨x, _ | e⟩, st⟩
      · exact envelope_success _ _ (Or.inr rfl)
      · simp only
        split_ifs
        · exact envelope_failure _ _ (Or.inr (Or.inr (Or.inl rfl)))
        · exact envelope_failure _ _ (Or.inr (Or.inr (Or.inr rfl)))
    · exact envelope_failure _ _ (Or.inl rfl)
  · unfold UpdateHandler updateFailure
    rcases DecodeDocument r.Body zeroDocument with ⟨d, _ | e⟩
    · simp only
      rcases ParseInt (muxVar r "id") with ⟨id, _ | e⟩
      · simp only
        rcases svc.Update { d with ID := id } w.state with ⟨⟨x, _ | e⟩, st⟩
        · exact envelope_success _ _ (Or.inl rfl)
        · simp only
          split_ifs
          · exact envelope_failure _ _ (Or.inr (Or.inl rfl))
          · exact envelope_failure _ _ (Or.inr (Or.inr (Or.inl rfl)))
          · exact envelope_failure _ _ (Or.inr (Or.inr (Or.inr rfl)))
      · exact envelope_failure _ _ (Or.inl rfl)
    · exact envelope_failure _ _ (Or.inl rfl)
  · unfold DeleteHandler deleteFailure
    rcases ParseInt (muxVar r "id") with ⟨id, _ | e⟩
    · simp only
      rcases svc.Delete id w.state with ⟨_ | e, st⟩
      · exact envelope_success _ _ (Or.inl rfl)
      · simp only
        split_ifs
        · exact envelope_failure _ _ (Or.inr (Or.inl rfl))
        · exact envelope_failure _ _ (Or.inr (Or.inr (Or.inr rfl)))
    · exact envelope_failure _ _ (Or.inl rfl)
  · unfold GetByIdHandler getByIdFailure
    rcases ParseInt (muxVar r "id") with ⟨id, _ | e⟩
    · simp only
      rcases svc.Get id w.state with ⟨⟨x, _ | e⟩, st⟩
      · exact envelope_success _ _ (Or.inl rfl)
      · simp only
        split_ifs
        · exact envelope_failure _ _ (Or.inr (Or.inl rfl))
        · exact envelope_failure _ _ (Or.inr (Or.inr (Or.inr rfl)))
    · exact envelope_failure _ _ (Or.inl rfl)
  · unfold GetAllHandler getAllFailure
    rcases svc.GetAll w.state with ⟨⟨x, _ | e⟩, st⟩
    · exact envelope_success _ _ (Or.inl rfl)
    · exact envelope_failure _ _ (Or.inr (Or.inr (Or.inr rfl)))

/-- An instance of C14 on the delete handler's not-found test: status 404,
flag false, null payload and the sentinel's message. -/
theorem handler_envelope_witness :
    (DeleteHandler (serviceMock (none, none) (none, none) (none, none)
        (some GoError.ErrNoRows) (none, none)) ⟨[], [("id", str "1")]⟩ ⟨(), []⟩).1 =
      ⟨404, ⟨404, false, Payload.nil, "sql: no rows in result set"⟩⟩ ∧
    EnvelopeOK (DeleteHandler (serviceMock (none, none) (none, none) (none, none)
        (some GoError.ErrNoRows) (none, none)) ⟨[], [("id", str "1")]⟩ ⟨(), []⟩).1
      (some GoError.ErrNoRows) :=
  ⟨by decide,
    (handler_envelope (serviceMock (none, none) (none, none) (none, none)
      (some GoError.ErrNoRows) (none, none)) ⟨[], [("id", str "1")]⟩ ⟨(), []⟩).2.2.1⟩

/-! ### Further properties of the repository -/

theorem scanAll_rows (rows : List Row) (results : List Document)
    (hd : ∀ r ∈ rows, (UnmarshalContent r.content ⟨[], []⟩).2 = none) :
    scanAll (rows.map Row.values) results =
      some (some (results ++ rows.map Row.document), none) := by
  induction rows generalizing results with
  | nil => simp [scanAll]
  | cons r rest ih =>
    have hr := hd r (List.mem_cons_self _ _)
    have hs : scanDocument r.values zeroDocument = some (r.document, none) :=
      scanDocument_values r (UnmarshalContent r.content ⟨[], []⟩).1 zeroDocument
        (Prod.ext rfl hr)
    simp only [List.map_cons, scanAll, hs]
    rw [ih _ (fun x hx => hd x (List.mem_cons_of_mem _ hx))]
    simp

/-- C15: whenever the select statement is prepared and the store returns
rows whose contents all deserialize, repository `GetAll` succeeds and returns
exactly one document per row, in the order of the rows, each with that row's
identifier, title, deserialized content and signee; for no rows the result is
the empty, non-nil sequence and no error. -/
theorem repository_getAll_rows {σ : Type} (db : SqlDB σ) (st st1 st2 : σ) (rows : List Row)
    (hp : db.Prepare selectAllQuery st = (none, st1))
    (hq : db.Query selectAllQuery [] st1 = (.ok (rows.map Row.values), st2))
    (hd : ∀ r ∈ rows, (UnmarshalContent r.content ⟨[], []⟩).2 = none) :
    documentRepository.GetAll db st = some ((some (rows.map Row.document), none), st2) := by
  unfold documentRepository.GetAll
  rw [hp]
  simp only [hq]
  rw [scanAll_rows rows [] hd]
  rfl

theorem tableDB_selectAll (st : Store) :
    tableDB.Query selectAllQuery [] st = (.ok (st.rows.map Row.values), st) := by
  simp [tableDB, selectAllQuery, selectByIdQuery]

/-- Witness for C15: the two rows of the repository test, and the empty
store. -/
theorem repository_getAll_rows_witness :
    documentRepository.GetAll tableDB
        ⟨[⟨1, str "first title", str "\x7b\"header\":\"header\",\"data\":\"data\"\x7d",
            str "first signee"⟩,
          ⟨2, str "second title", str "\x7b\"header\":\"header\",\"data\":\"data\"\x7d",
            str "second signee"⟩], 3⟩ =
      some ((some [⟨1, str "first title", ⟨str "header", str "data"⟩, str "first signee"⟩,
          ⟨2, str "second title", ⟨str "header", str "data"⟩, str "second signee"⟩], none),
        ⟨[⟨1, str "first title", str "\x7b\"header\":\"header\",\"data\":\"data\"\x7d",
            str "first signee"⟩,
          ⟨2, str "second title", str "\x7b\"header\":\"header\",\"data\":\"data\"\x7d",
            str "second signee"⟩], 3⟩) ∧
    documentRepository.GetAll tableDB ⟨[], 1⟩ = some ((some [], none), ⟨[], 1⟩) :=
  ⟨(repository_getAll_rows tableDB _ _ _
      [⟨1, str "first title", str "\x7b\"header\":\"header\",\"data\":\"data\"\x7d",
          str "first signee"⟩,
        ⟨2, str "second title", str "\x7b\"header\":\"header\",\"data\":\"data\"\x7d",
          str "second signee"⟩]
      (tableDB_prepare_known _).2.2.2.1 (tableDB_selectAll _) (by decide)).trans (by decide),
    repository_getAll_rows tableDB _ _ _ [] (tableDB_prepare_known _).2.2.2.1
      (tableDB_selectAll _) (by simp)⟩

/-- C16: repository `Update` over any driver. When the update statement is
prepared, executed and its affected-row count read without an error, the
result is exactly the input document, whatever the count (zero included) and
whatever the store holds; when preparing, executing or reading the count
fails, the result is no document and that error. -/
theorem repository_update_returns_input {σ : Type} (db : SqlDB σ) (d : Document) (st : σ) :
    (∀ st1 st2 res n, db.Prepare updateQuery st = (none, st1) →
      db.Exec updateQuery (updateArgs d) st1 = (.ok res, st2) →
      res.RowsAffected = (n, none) →
      documentRepository.Update db d st = ((some d, none), st2)) ∧
    (∀ st1 e, db.Prepare updateQuery st = (some e, st1) →
      documentRepository.Update db d st = ((none, some e), st1)) ∧
    (∀ st1 st2 e, db.Prepare updateQuery st = (none, st1) →
      db.Exec updateQuery (updateArgs d) st1 = (.error e, st2) →
      documentRepository.Update db d st = ((none, some e), st2)) ∧
    (∀ st1 st2 res n e, db.Prepare updateQuery st = (none, st1) →
      db.Exec updateQuery (updateArgs d) st1 = (.ok res, st2) →
      res.RowsAffected = (n, some e) →
      documentRepository.Update db d st = ((none, some e), st2)) := by
  refine ⟨?_, ?_, ?_, ?_⟩
  · intro st1 st2 res n hp he hr
    unfold documentRepository.Update
    unfold updateArgs at he
    rw [hp]
    simp only [he, hr]
  · intro st1 e hp
    unfold documentRepository.Update
    rw [hp]
  · intro st1 st2 e hp he
    unfold documentRepository.Update
    unfold updateArgs at he
    rw [hp]
    simp only [he]
  · intro st1 st2 res n e hp he hr
    unfold documentRepository.Update
    unfold updateArgs at he
    rw [hp]
    simp only [he, hr]

theorem tableDB_update (st : Store) (d : Document) :
    tableDB.Exec updateQuery (updateArgs d) st =
      (.ok ⟨(0, none), (((st.rows.filter (fun r => r.id = d.ID)).length : Int), none)⟩,
        ⟨st.rows.map (fun r =>
            if r.id = d.ID then ⟨d.ID, d.Title, MarshalContent d.Content, d.Signee⟩ else r),
          st.nextId⟩) := by
  simp [tableDB, updateArgs, textArg, updateQuery, insertQuery]

/-- An instance of C16 on the table store: updating an identifier no row has
affects zero rows, leaves the table as it was and still returns the input. -/
theorem repository_update_returns_input_witness :
    (((⟨[⟨1, str "t", str "\x7b\x7d", str "s"⟩], 2⟩ : Store).rows.filter
      (fun r => r.id = 100)).length : Int) = 0 ∧
    documentRepository.Update tableDB ⟨100, str "new", ⟨str "h", []⟩, str "new2"⟩
        ⟨[⟨1, str "t", str "\x7b\x7d", str "s"⟩], 2⟩ =
      ((some ⟨100, str "new", ⟨str "h", []⟩, str "new2"⟩, none),
        ⟨[⟨1, str "t", str "\x7b\x7d", str "s"⟩], 2⟩) :=
  ⟨by decide,
    ((repository_update_returns_input tableDB ⟨100, str "new", ⟨str "h", []⟩, str "new2"⟩
      ⟨[⟨1, str "t", str "\x7b\x7d", str "s"⟩], 2⟩).1 _ _ _ _
      (tableDB_prepare_known _).2.2.1 (tableDB_update _ _) rfl).trans (by decide)⟩

end Precisely
